import Mathlib

/-!
Verification of the `yt_crawler` recipe-extraction pipeline
(`src/extract/llm_extractor.py` together with `utils/db_handler.py`).

The Python code is shallowly embedded: JSON values become the inductive
type `JVal`, Python dicts become insertion-ordered association lists,
Python floats become exact rationals (`Rat`), and Python exceptions
become `Except String`.  Each Lean definition mirrors one Python
function (named in its doc comment).
-/

namespace YtCrawler

/-- A JSON value, as produced by Python's `json.loads`.  Numbers are
modelled as exact rationals (Python would distinguish `int`/`float`;
no behaviour verified here depends on that distinction). -/
inductive JVal where
  | jnull
  | jbool (b : Bool)
  | jnum (q : Rat)
  | jstr (s : String)
  | jarr (xs : List JVal)
  | jobj (fields : List (String × JVal))

/-- A Python dict with string keys, in insertion order (keys unique). -/
abbrev Obj := List (String × JVal)

/-- First binding for key `k`, i.e. Python `d[k]` when present. -/
def objGet : Obj → String → Option JVal
  | [], _ => none
  | p :: rest, k => if p.1 = k then some p.2 else objGet rest k

/-- Python `d.get(k, default)`. -/
def objGetD (o : Obj) (k : String) (d : JVal) : JVal :=
  match objGet o k with
  | some v => v
  | none => d

/-- Python `k in d` for a dict. -/
def objHas : Obj → String → Bool
  | [], _ => false
  | p :: rest, k => if p.1 = k then true else objHas rest k

/-- Python `d[k] = v`: replace the first binding in place if the key
exists (keeping its position; keys are unique in every dict this code
builds), otherwise append the new binding. -/
def objSet : Obj → String → JVal → Obj
  | [], k, v => [(k, v)]
  | p :: rest, k, v => if p.1 = k then (k, v) :: rest else p :: objSet rest k v

/-- Python `d.pop(k, None)`: remove the binding(s) for `k`, if any
(keys are unique, so removing all occurrences is dict `pop`). -/
def objPop : Obj → String → Obj
  | [], _ => []
  | p :: rest, k => if p.1 = k then objPop rest k else p :: objPop rest k

/-- Python `d.update(other)`: for each key of `other` in order, set it
in `d`. -/
def objUpdate (o other : Obj) : Obj :=
  other.foldl (fun acc p => objSet acc p.1 p.2) o

/-- Whitespace characters stripped by Python's `str.strip()`
(ASCII subset; the Korean strings in this code base contain no other
whitespace). -/
def pySpace : Char → Bool
  | ' ' | '\t' | '\n' | '\r' | '\x0b' | '\x0c' => true
  | _ => false

/-- Strip leading and trailing whitespace from a character list. -/
def stripChars (xs : List Char) : List Char :=
  ((xs.dropWhile pySpace).reverse.dropWhile pySpace).reverse

/-- Python `s.strip()`. -/
def pyStrip (s : String) : String :=
  ⟨stripChars s.data⟩

/-- Python `len(s)`: number of code points. -/
def pyLen (s : String) : Nat :=
  s.data.length

/-- Python truthiness of a JSON value (`if not x`). -/
def pyTruthy : JVal → Bool
  | JVal.jnull => false
  | JVal.jbool b => b
  | JVal.jnum q => !(q == 0)
  | JVal.jstr s => !s.isEmpty
  | JVal.jarr xs => !xs.isEmpty
  | JVal.jobj o => !o.isEmpty

/-- Python `s.strip()` applied to an arbitrary value: raises
`AttributeError` unless the value is a string. -/
def pyStripV : JVal → Except String String
  | JVal.jstr s => Except.ok (pyStrip s)
  | _ => Except.error "AttributeError: strip"

/-- Does `pat` occur as a contiguous sublist of `xs`? -/
def containsSub (pat : List Char) : List Char → Bool
  | [] => pat.isEmpty
  | c :: rest => pat.isPrefixOf (c :: rest) || containsSub pat rest

/-- Python `field in x` for the values this code applies it to:
key membership for dicts, element membership for lists (only string
elements can equal the string needle), substring test for strings,
`TypeError` otherwise. -/
def pyIn (f : String) : JVal → Except String Bool
  | JVal.jobj o => Except.ok (objHas o f)
  | JVal.jarr xs =>
      Except.ok (xs.any (fun x =>
        match x with
        | JVal.jstr s => s == f
        | _ => false))
  | JVal.jstr s => Except.ok (containsSub f.data s.data)
  | _ => Except.error "TypeError: in"

/-! ## The validator (`_validate_extracted_data`, `llm_extractor.py` lines 22–78) -/

/-- The closed difficulty enumeration (line 64). -/
def validDifficulties : List String :=
  ["매우 쉬움", "쉬움", "보통", "어려움", "매우 어려움"]

/-- The required top-level fields (line 26). -/
def requiredFields : List String :=
  ["dish_name", "category", "ingredients", "recipe", "difficulty", "cooking_time"]

/-- The required-field loop (lines 27–29): first field `f` with
`f not in extracted_info`, if any. -/
def firstMissing (v : JVal) : List String → Except String (Option String)
  | [] => Except.ok none
  | f :: fs =>
      match pyIn f v with
      | Except.error e => Except.error e
      | Except.ok true => firstMissing v fs
      | Except.ok false => Except.ok (some f)

/-- One iteration of the valid-ingredient loop (lines 40–43): a dict
whose stripped `name` and `quantity` are non-empty and whose stripped
`name` has length ≥ 2. -/
def ingValid : JVal → Except String Bool
  | JVal.jobj o =>
      match pyStripV (objGetD o "name" (JVal.jstr "")) with
      | Except.error e => Except.error e
      | Except.ok n =>
          if n = "" then Except.ok false
          else
            match pyStripV (objGetD o "quantity" (JVal.jstr "")) with
            | Except.error e => Except.error e
            | Except.ok q =>
                if q = "" then Except.ok false
                else Except.ok (decide (2 ≤ pyLen n))
  | _ => Except.ok false

/-- One iteration of the valid-step loop (lines 53–57): a dict whose
stripped `instruction` is non-empty of length ≥ 10. -/
def stepValid : JVal → Except String Bool
  | JVal.jobj o =>
      match pyStripV (objGetD o "instruction" (JVal.jstr "")) with
      | Except.error e => Except.error e
      | Except.ok instr =>
          if instr = "" then Except.ok false
          else Except.ok (decide (10 ≤ pyLen instr))
  | _ => Except.ok false

/-- Count the list elements satisfying an effectful predicate,
propagating the first exception (the counting loops of lines 39–43 and
52–57). -/
def countValid (f : JVal → Except String Bool) : List JVal → Except String Nat
  | [] => Except.ok 0
  | x :: xs =>
      match f x with
      | Except.error e => Except.error e
      | Except.ok b =>
          match countValid f xs with
          | Except.error e => Except.error e
          | Except.ok n => Except.ok (if b then n + 1 else n)

/-- Lines 62–68: strip the `difficulty` value; if empty or outside the
enumeration overwrite it with `"보통"`, otherwise leave the dict
untouched. -/
def difficultyStep (o : Obj) : Except String Obj :=
  match pyStripV (objGetD o "difficulty" (JVal.jstr "")) with
  | Except.error e => Except.error e
  | Except.ok difficulty =>
      if difficulty ≠ "" then
        if validDifficulties.contains difficulty then Except.ok o
        else Except.ok (objSet o "difficulty" (JVal.jstr "보통"))
      else Except.ok (objSet o "difficulty" (JVal.jstr "보통"))

/-- Lines 70–72: default an empty `cooking_time` to `"정보 없음"`. -/
def cookingStep (o : Obj) : Except String Obj :=
  match pyStripV (objGetD o "cooking_time" (JVal.jstr "")) with
  | Except.error e => Except.error e
  | Except.ok ct =>
      if ct = "" then Except.ok (objSet o "cooking_time" (JVal.jstr "정보 없음"))
      else Except.ok o

/-- Lines 74–78: the final category length check. -/
def categoryCheck (o : Obj) : Except String (Bool × String × Obj) :=
  match pyStripV (objGetD o "category" (JVal.jstr "")) with
  | Except.error e => Except.error e
  | Except.ok category =>
      if category = "" ∨ pyLen category < 2 then
        Except.ok (false, "Category name too short or empty", o)
      else
        Except.ok (true, "Valid", o)

/-- Function `_validate_extracted_data` lines 31–78: the body run once the
required-field loop has passed, on a dict.  The returned `Obj` is the
state of `extracted_info` afterwards (the Python function mutates its
argument in place). -/
def validateObj (o : Obj) : Except String (Bool × String × Obj) :=
  match pyStripV (objGetD o "dish_name" (JVal.jstr "")) with
  | Except.error e => Except.error e
  | Except.ok dish_name =>
    if dish_name = "" ∨ pyLen dish_name < 2 then
      Except.ok (false, "Dish name too short or empty", o)
    else
      match objGetD o "ingredients" (JVal.jarr []) with
      | JVal.jarr ings =>
        if ings.length < 2 then
          Except.ok (false, "Insufficient ingredients: " ++ toString ings.length, o)
        else
          match countValid ingValid ings with
          | Except.error e => Except.error e
          | Except.ok nv =>
            if nv < 2 then
              Except.ok (false, "Too few valid ingredients: " ++ toString nv, o)
            else
              match objGetD o "recipe" (JVal.jarr []) with
              | JVal.jarr steps =>
                if steps.length < 2 then
                  Except.ok (false, "Insufficient recipe steps: " ++ toString steps.length, o)
                else
                  match countValid stepValid steps with
                  | Except.error e => Except.error e
                  | Except.ok ns =>
                    if ns < 2 then
                      Except.ok (false, "Too few valid recipe steps: " ++ toString ns, o)
                    else
                      match difficultyStep o with
                      | Except.error e => Except.error e
                      | Except.ok o1 =>
                        match cookingStep o1 with
                        | Except.error e => Except.error e
                        | Except.ok o2 => categoryCheck o2
              | _ => Except.ok (false, "Insufficient recipe steps: 0", o)
      | _ => Except.ok (false, "Insufficient ingredients: 0", o)

/-- Result of `_validate_extracted_data`: the `(bool, reason)` pair it
returns, together with the final state of its (mutated) argument. -/
structure VResult where
  ok : Bool
  reason : String
  info : Option JVal

/-- Function `_validate_extracted_data` (lines 22–78).  `none` models the
`extracted_info is None` case (`_extract_with_llm` returned `None`). -/
def validateExtractedData (extracted : Option JVal) : Except String VResult :=
  match extracted with
  | none => Except.ok ⟨false, "No data extracted", none⟩
  | some v =>
    if pyTruthy v = false then Except.ok ⟨false, "No data extracted", some v⟩
    else
      match firstMissing v requiredFields with
      | Except.error e => Except.error e
      | Except.ok (some f) => Except.ok ⟨false, "Missing field: " ++ f, some v⟩
      | Except.ok none =>
        match v with
        | JVal.jobj o =>
            match validateObj o with
            | Except.error e => Except.error e
            | Except.ok (b, r, o2) => Except.ok ⟨b, r, some (JVal.jobj o2)⟩
        | _ => Except.error "AttributeError: get"

/-! ## JSON parsing (`json.loads`)

A recursive-descent parser for the JSON grammar accepted by Python's
`json.loads` (strict mode): values are `null`/`true`/`false`, strings
with the standard escapes, numbers `-?(0|[1-9][0-9]*)(.[0-9]+)?([eE][+-]?[0-9]+)?`,
arrays and objects, with `space`/`tab`/`newline`/`carriage-return`
whitespace between tokens.  Recursion is bounded by a fuel argument
that the top entry point `jsonParse` sets large enough for any input.
(Python's `NaN`/`Infinity` extensions and astral `\uXXXX` surrogate
pairing are not modelled; no verified input uses them.  Duplicate keys
inside one JSON object — where Python keeps the last binding — do not
occur in any verified input either.) -/

/-- JSON inter-token whitespace. -/
def jsonWsp : Char → Bool
  | ' ' | '\t' | '\n' | '\r' => true
  | _ => false

/-- Drop leading JSON whitespace. -/
def skipWs : List Char → List Char
  | [] => []
  | c :: rest => if jsonWsp c then skipWs rest else c :: rest

/-- Value of a hex digit. -/
def hexVal (c : Char) : Option Nat :=
  if '0' ≤ c ∧ c ≤ '9' then some (c.toNat - 48)
  else if 'a' ≤ c ∧ c ≤ 'f' then some (c.toNat - 87)
  else if 'A' ≤ c ∧ c ≤ 'F' then some (c.toNat - 55)
  else none

/-- Value of a decimal digit. -/
def digVal (c : Char) : Option Nat :=
  if '0' ≤ c ∧ c ≤ '9' then some (c.toNat - 48) else none

/-- Split a leading run of decimal digits off a character list. -/
def splitDigits : List Char → (List Nat × List Char)
  | [] => ([], [])
  | c :: r =>
      match digVal c with
      | some d =>
          let (ds, rest) := splitDigits r
          (d :: ds, rest)
      | none => ([], c :: r)

/-- Read a digit list as a natural number. -/
def digitsToNat (ds : List Nat) : Nat :=
  ds.foldl (fun a d => a * 10 + d) 0

/-- The single-character JSON string escapes. -/
def escChar : Char → Option Char
  | '"' => some '"'
  | '\\' => some '\\'
  | '/' => some '/'
  | 'b' => some '\x08'
  | 'f' => some '\x0c'
  | 'n' => some '\n'
  | 'r' => some '\r'
  | 't' => some '\t'
  | _ => none

/-- Parse the body of a JSON string literal (the opening quote already
consumed), returning the decoded characters and the remainder. -/
def parseStrChars : Nat → List Char → Option (List Char × List Char)
  | 0, _ => none
  | fuel + 1, s =>
    match s with
    | [] => none
    | c :: rest =>
      if c == '"' then some ([], rest)
      else if c == '\\' then
        match rest with
        | [] => none
        | e :: rest2 =>
          if e == 'u' then
            match rest2 with
            | h1 :: h2 :: h3 :: h4 :: rest3 =>
              match hexVal h1, hexVal h2, hexVal h3, hexVal h4 with
              | some a, some b, some c2, some d2 =>
                  (parseStrChars fuel rest3).map
                    (fun pr => (Char.ofNat (((a * 16 + b) * 16 + c2) * 16 + d2) :: pr.1, pr.2))
              | _, _, _, _ => none
            | _ => none
          else
            match escChar e with
            | some ch => (parseStrChars fuel rest2).map (fun pr => (ch :: pr.1, pr.2))
            | none => none
      else if c.toNat < 32 then none
      else (parseStrChars fuel rest).map (fun pr => (c :: pr.1, pr.2))

/-- Parse a JSON number (Python's `NUMBER_RE`): the optional fraction
and exponent groups simply do not participate when malformed, leaving
those characters in the remainder. -/
def parseNum (s : List Char) : Option (Rat × List Char) :=
  let (neg, s1) :=
    match s with
    | '-' :: r => (true, r)
    | _ => (false, s)
  match s1 with
  | [] => none
  | c :: r =>
    match digVal c with
    | none => none
    | some d0 =>
      let (ip, s2) :=
        if c == '0' then ((0 : Nat), r)
        else
          let (ds, rest) := splitDigits r
          (digitsToNat (d0 :: ds), rest)
      let (fq, s3) :=
        match s2 with
        | '.' :: r2 =>
          (match splitDigits r2 with
           | ([], _) => ((0 : Rat), s2)
           | (ds, rest) => (((digitsToNat ds : Rat) / ((10 : Rat) ^ ds.length)), rest))
        | _ => ((0 : Rat), s2)
      let (ex, s4) :=
        match s3 with
        | e :: r2 =>
          if e == 'e' || e == 'E' then
            let (sgn, r3) :=
              match r2 with
              | '+' :: r4 => ((1 : Int), r4)
              | '-' :: r4 => ((-1 : Int), r4)
              | _ => ((1 : Int), r2)
            match splitDigits r3 with
            | ([], _) => ((0 : Int), s3)
            | (ds, rest) => (sgn * (digitsToNat ds : Int), rest)
          else ((0 : Int), s3)
        | [] => ((0 : Int), s3)
      let mag : Rat := ((ip : Rat) + fq) * (10 : Rat) ^ ex
      some ((if neg then -mag else mag), s4)

mutual

/-- Parse one JSON value (leading whitespace allowed). -/
def parseVal : Nat → List Char → Option (JVal × List Char)
  | 0, _ => none
  | fuel + 1, s =>
    match skipWs s with
    | [] => none
    | c :: rest =>
      if c == '"' then
        match parseStrChars (fuel + 1) rest with
        | some (cs, r) => some (JVal.jstr ⟨cs⟩, r)
        | none => none
      else if c == '{' then
        match skipWs rest with
        | '}' :: r => some (JVal.jobj [], r)
        | _ =>
          match parseObjRest fuel rest with
          | some (o, r) => some (JVal.jobj o, r)
          | none => none
      else if c == '[' then
        match skipWs rest with
        | ']' :: r => some (JVal.jarr [], r)
        | _ =>
          match parseArrRest fuel rest with
          | some (xs, r) => some (JVal.jarr xs, r)
          | none => none
      else if c == 't' then
        match rest with
        | 'r' :: 'u' :: 'e' :: r => some (JVal.jbool true, r)
        | _ => none
      else if c == 'f' then
        match rest with
        | 'a' :: 'l' :: 's' :: 'e' :: r => some (JVal.jbool false, r)
        | _ => none
      else if c == 'n' then
        match rest with
        | 'u' :: 'l' :: 'l' :: r => some (JVal.jnull, r)
        | _ => none
      else
        match parseNum (c :: rest) with
        | some (q, r) => some (JVal.jnum q, r)
        | none => none

/-- Parse the (non-empty) element list of a JSON array. -/
def parseArrRest : Nat → List Char → Option (List JVal × List Char)
  | 0, _ => none
  | fuel + 1, s =>
    match parseVal fuel s with
    | none => none
    | some (v, r1) =>
      match skipWs r1 with
      | ',' :: r2 =>
        match parseArrRest fuel r2 with
        | some (vs, r3) => some (v :: vs, r3)
        | none => none
      | ']' :: r2 => some ([v], r2)
      | _ => none

/-- Parse the (non-empty) member list of a JSON object. -/
def parseObjRest : Nat → List Char → Option (Obj × List Char)
  | 0, _ => none
  | fuel + 1, s =>
    match skipWs s with
    | '"' :: r =>
      match parseStrChars (fuel + 1) r with
      | none => none
      | some (key, r1) =>
        match skipWs r1 with
        | ':' :: r2 =>
          match parseVal fuel r2 with
          | none => none
          | some (v, r3) =>
            match skipWs r3 with
            | ',' :: r4 =>
              match parseObjRest fuel r4 with
              | some (ps, r5) => some ((⟨key⟩, v) :: ps, r5)
              | none => none
            | '}' :: r4 => some ([(⟨key⟩, v)], r4)
            | _ => none
        | _ => none
    | _ => none

end

/-- Python `json.loads`: parse one value and require only whitespace after it. -/
def jsonParse (s : List Char) : Option JVal :=
  match parseVal (2 * s.length + 16) s with
  | some (v, rest) => if (skipWs rest).isEmpty then some v else none
  | none => none

/-! ## Response parsing (`_extract_with_llm`, lines 103–135) -/

/-- Split at the first occurrence of `pat`: the part before it and the
part after it. -/
def splitFirst (pat : List Char) : List Char → Option (List Char × List Char)
  | [] => if pat.isEmpty then some ([], []) else none
  | c :: rest =>
    if pat.isPrefixOf (c :: rest) then some ([], (c :: rest).drop pat.length)
    else
      match splitFirst pat rest with
      | some (pre, post) => some (c :: pre, post)
      | none => none

/-- Group 1 of `re.search(r'```json\n(.*?)```', text, re.DOTALL)`
(line 112): the text between the first occurrence of the opening
delimiter and the first closing triple-backtick after it.  (The
leftmost-match/non-greedy regex semantics coincide with this: if no
triple-backtick follows the first opening delimiter, no later opening
delimiter — which itself starts with a triple-backtick — can exist
either, so the regex fails exactly when this function does.) -/
def fencedJsonInterior (s : List Char) : Option (List Char) :=
  match splitFirst "```json\n".data s with
  | none => none
  | some (_, rest) =>
    match splitFirst "```".data rest with
    | none => none
    | some (inner, _) => some inner

/-- The three keys the extractor requires in the decoded value
(lines 117 and 125); Python's `all` short-circuits. -/
def requiredKeys3 : List String := ["dish_name", "ingredients", "recipe"]

/-- Python `all(key in result for key in [...])`. -/
def allKeysIn (v : JVal) : List String → Except String Bool
  | [] => Except.ok true
  | k :: ks =>
    match pyIn k v with
    | Except.error e => Except.error e
    | Except.ok true => allKeysIn v ks
    | Except.ok false => Except.ok false

/-- Parse a candidate JSON text and keep the result only when it
contains the three required keys.  A decode failure, a missing key, or
a `TypeError` from the membership test all end in `None` (the latter
via the enclosing `except Exception` at line 133). -/
def parseChecked (s : List Char) : Option JVal :=
  match jsonParse s with
  | none => none
  | some v =>
    match allKeysIn v requiredKeys3 with
    | Except.ok true => some v
    | _ => none

/-- The response-processing part of `_extract_with_llm` (lines
112–131): prefer the first ` ```json ` fenced block, else try the full
stripped text. -/
def extractParse (text : String) : Option JVal :=
  match fencedJsonInterior text.data with
  | some inner => parseChecked (stripChars inner)
  | none => parseChecked (stripChars text.data)

/-! ## Prompt construction and the model call -/

/-- Function `_generate_prompt` (lines 80–101): a fixed instruction block with
the source text spliced in. -/
def generatePrompt (text : String) : String :=
  "다음 텍스트에서 요리 레시피 정보를 JSON으로 추출하세요.\n\n요구사항:\n- dish_name: 요리명 (필수)\n- category: 이 요리의 핵심이 되는 카테고리(요리명)를 추출하세요.\n  - 규칙 1: \u0027고추장\u0027, \u0027간장\u0027, \u0027매운\u0027, \u0027백종원\u0027과 같은 **부가 설명**이나, \u0027돼지고기\u0027, \u0027소고기\u0027처럼 **핵심 재료 외의 추가 재료**는 카테고리 이름에서 **제외**해야 합니다.\n  - 규칙 2: 요리 방식(예: \u0027볶음\u0027, \u0027구이\u0027)만 추출하는 것이 아니라, **요리명 자체**를 추출해야 합니다.\n  - 예시 1: dish_name이 \u0027매콤한 고추장 오징어볶음\u0027이면 category는 \u0027오징어볶음\u0027입니다.\n  - 예시 2: dish_name이 \u0027돼지고기 오징어 볶음\u0027이면 category는 \u0027오징어볶음\u0027입니다.\n  - 예시 3: dish_name이 \u0027김치 돼지고기 짜글이\u0027면 category는 \u0027김치짜글이\u0027 또는 \u0027짜글이\u0027입니다.\n- ingredients: [\x7b\"name\":\"재료명\", \"quantity\":\"수량\"\x7d] 형태 배열  \n- recipe: [\x7b\"step\":번호, \"instruction\":\"조리과정\"\x7d] 형태 배열\n- difficulty: 요리 난이도 (\"매우 쉬움\", \"쉬움\", \"보통\", \"어려움\", \"매우 어려움\" 중 하나)\n- cooking_time: 총 요리 시간 (예: \"30분\", \"1시간 30분\")\n- JSON 형식만 응답\n\n텍스트:\n"
  ++ text ++ "\n\nJSON:"

/-- Function `_extract_with_llm` (lines 103–135), with the generative model as
an explicit function from prompt to response text; `none` models a
transport exception from `generate_content`, which the function's own
`except` clause converts to a `None` result.  (`self.llm` is always
configured here: `run` returns early at line 213 otherwise.) -/
def extractWithLLM (llm : String → Option String) (text : String) : Option JVal :=
  match llm (generatePrompt text) with
  | none => none
  | some response => extractParse response

/-! ## Caption alignment (`_match_recipe_with_captions`, lines 137–181) -/

/-- Round half to even (Python's `round` tie-breaking rule). -/
def roundHalfEven (q : Rat) : Int :=
  let n := ⌊q⌋
  let f := q - n
  if f < 1 / 2 then n
  else if 1 / 2 < f then n + 1
  else if n % 2 = 0 then n else n + 1

/-- Python `round(x, 1)` on the exact rational model. -/
def round1 (q : Rat) : Rat :=
  (roundHalfEven (q * 10) : Rat) / 10

/-- Python `int(x)`: truncation toward zero. -/
def pyInt (q : Rat) : Int :=
  if 0 ≤ q then ⌊q⌋ else ⌈q⌉

/-- Python `segment.get('start', default)` read as a number.  A non-dict
segment raises immediately; a non-numeric `start` value is modelled as
raising here (in Python the exception would surface slightly later, at
the comparison in `sorted` or at `round` — either way the enclosing
`except` at line 179 returns the original steps). -/
def capGetStart (c : JVal) (d : Rat) : Except String Rat :=
  match c with
  | JVal.jobj o =>
    match objGet o "start" with
    | none => Except.ok d
    | some (JVal.jnum q) => Except.ok q
    | some _ => Except.error "TypeError: start"
  | _ => Except.error "AttributeError: get"

/-- Python `x.get('step', d)` / `x.get('instruction', d)` on a loop element. -/
def pyGetD (v : JVal) (k : String) (d : JVal) : Except String JVal :=
  match v with
  | JVal.jobj o => Except.ok (objGetD o k d)
  | _ => Except.error "AttributeError: get"

/-- The sort key of line 142: `lambda x: x.get('start', 0)`. -/
def capKeyed (c : JVal) : Except String (Rat × JVal) :=
  match capGetStart c 0 with
  | Except.error e => Except.error e
  | Except.ok q => Except.ok (q, c)

/-- Effectful map, propagating the first exception. -/
def mapExc (f : JVal → Except String (Rat × JVal)) : List JVal → Except String (List (Rat × JVal))
  | [] => Except.ok []
  | x :: xs =>
    match f x with
    | Except.error e => Except.error e
    | Except.ok y =>
      match mapExc f xs with
      | Except.error e => Except.error e
      | Except.ok ys => Except.ok (y :: ys)

/-- Ordering on keyed captions. -/
def keyLe (a b : Rat × JVal) : Prop := a.1 ≤ b.1

instance : DecidableRel keyLe := fun a b => inferInstanceAs (Decidable (a.1 ≤ b.1))

/-- Python `sorted(..., key=lambda x: x.get('start', 0))`: a stable
sort on the key (insertion sort is stable, like timsort). -/
def sortCaps (l : List (Rat × JVal)) : List (Rat × JVal) :=
  l.insertionSort keyLe

/-- One iteration of the loop at lines 147–174. -/
def alignOne (sortedCaps : List JVal) (total S i : Nat) (st : JVal) : Except String JVal :=
  let ci := pyInt ((i : Rat) / (S : Rat) * (total : Rat))
  if ci < (total : Int) then
    match capGetStart (sortedCaps.getD ci.toNat (JVal.jobj [])) 0 with
    | Except.error e => Except.error e
    | Except.ok start_time =>
      let endE : Except String Rat :=
        if i + 1 < S then
          let nci := pyInt (((i + 1 : Nat) : Rat) / (S : Rat) * (total : Rat))
          if nci < (total : Int) then
            capGetStart (sortedCaps.getD nci.toNat (JVal.jobj [])) (start_time + 30)
          else Except.ok (start_time + 30)
        else
          match capGetStart (sortedCaps.getLast?.getD (JVal.jobj [])) start_time with
          | Except.error e => Except.error e
          | Except.ok lastStart => Except.ok (lastStart + 30)
      match endE with
      | Except.error e => Except.error e
      | Except.ok end_time =>
        match pyGetD st "step" (JVal.jnum ((i : Rat) + 1)) with
        | Except.error e => Except.error e
        | Except.ok stepVal =>
          match pyGetD st "instruction" (JVal.jstr "") with
          | Except.error e => Except.error e
          | Except.ok instrVal =>
            Except.ok (JVal.jobj
              [("step", stepVal), ("instruction", instrVal),
               ("start_time", JVal.jnum (round1 start_time)),
               ("end_time", JVal.jnum (round1 end_time))])
  else
    match pyGetD st "step" (JVal.jnum ((i : Rat) + 1)) with
    | Except.error e => Except.error e
    | Except.ok stepVal =>
      match pyGetD st "instruction" (JVal.jstr "") with
      | Except.error e => Except.error e
      | Except.ok instrVal =>
        Except.ok (JVal.jobj [("step", stepVal), ("instruction", instrVal)])

/-- The `for i, step in enumerate(recipe_steps)` loop. -/
def alignLoop (sortedCaps : List JVal) (total S : Nat) : Nat → List JVal → Except String (List JVal)
  | _, [] => Except.ok []
  | i, st :: rest =>
    match alignOne sortedCaps total S i st with
    | Except.error e => Except.error e
    | Except.ok m =>
      match alignLoop sortedCaps total S (i + 1) rest with
      | Except.error e => Except.error e
      | Except.ok ms => Except.ok (m :: ms)

/-- The `try` body of `_match_recipe_with_captions` (lines 141–177). -/
def alignBody (steps caps : List JVal) : Except String (List JVal) :=
  match mapExc capKeyed caps with
  | Except.error e => Except.error e
  | Except.ok keyed =>
    let sortedCaps := (sortCaps keyed).map (fun p => p.2)
    alignLoop sortedCaps sortedCaps.length steps.length 0 steps

/-- Function `_match_recipe_with_captions` (lines 137–181): empty input returns
the steps unchanged, and any exception degrades to the original steps
(lines 179–181). -/
def matchRecipeWithCaptions (recipe_steps captions_segments : List JVal) : List JVal :=
  if recipe_steps.isEmpty || captions_segments.isEmpty then recipe_steps
  else
    match alignBody recipe_steps captions_segments with
    | Except.ok r => r
    | Except.error _ => recipe_steps

/-! ## Spec-side rendering of the alignment claim

`specAlign` is transcribed from the WORDS of claim C2 (spec §4.5), not
from the code: per step `i` a proportional index `⌊i / totalSteps *
totalSegments⌋` into the segments sorted ascending by start time,
`startTime` that segment's start, `endTime` the start at the
proportional index for `i+1`, the final step padded 30 s past the last
segment's start, an out-of-range next index falling back to
`startTime + 30`, both times rounded to one decimal; empty input
returned unchanged.  It has no untimed branch: the claim asserts every
step gets timing. -/

/-- A caption segment's start time, as the claim reads it (total
function; claims quantify over segments that carry a numeric start). -/
def specStart (c : JVal) : Rat :=
  match c with
  | JVal.jobj o =>
    match objGet o "start" with
    | some (JVal.jnum q) => q
    | _ => 0
  | _ => 0

/-- The segments sorted ascending by start time (stable). -/
def specSortedCaps (caps : List JVal) : List JVal :=
  (sortCaps (caps.map (fun c => (specStart c, c)))).map (fun p => p.2)

/-- Copy a step field with its default, as the claim's output records
carry the step number and instruction through. -/
def specCopyField (st : JVal) (k : String) (d : JVal) : JVal :=
  match st with
  | JVal.jobj o => objGetD o k d
  | _ => d

/-- The claim's proportional index: `⌊i / totalSteps * totalSegments⌋`. -/
def specSegIdx (S C i : Nat) : Nat :=
  (Int.floor ((i : Rat) / (S : Rat) * (C : Rat))).toNat

/-- The claim's `startTime` for step `i`: the start of the segment at
the proportional index. -/
def specStartAt (sorted : List JVal) (S C i : Nat) : Rat :=
  specStart (sorted.getD (specSegIdx S C i) (JVal.jobj []))

/-- The claim's `endTime` for step `i`: the start at the proportional
index for `i+1`; for the final step the last segment's start plus 30
seconds; `startTime + 30` when the computed next index is out of
range. -/
def specEndAt (sorted : List JVal) (S C i : Nat) : Rat :=
  if i + 1 = S then specStart (sorted.getLast?.getD (JVal.jobj [])) + 30
  else
    if specSegIdx S C (i + 1) < C then specStartAt sorted S C (i + 1)
    else specStartAt sorted S C i + 30

/-- The claim's output record for step `i`: the step's number and
instruction plus both times rounded to one decimal place. -/
def specStepOut (sorted : List JVal) (S C i : Nat) (st : JVal) : JVal :=
  JVal.jobj
    [("step", specCopyField st "step" (JVal.jnum ((i : Rat) + 1))),
     ("instruction", specCopyField st "instruction" (JVal.jstr "")),
     ("start_time", JVal.jnum (round1 (specStartAt sorted S C i))),
     ("end_time", JVal.jnum (round1 (specEndAt sorted S C i)))]

/-- Claim C2's alignment function, written from the claim text. -/
def specAlign (steps caps : List JVal) : List JVal :=
  if steps.isEmpty || caps.isEmpty then steps
  else
    steps.mapIdx (fun i st =>
      specStepOut (specSortedCaps caps) steps.length caps.length i st)

/-- Well-formed caption segment: a dict carrying a numeric `start`
(the shape spec §2/§3 gives caption segments). -/
def capWF (c : JVal) : Bool :=
  match c with
  | JVal.jobj o =>
    match objGet o "start" with
    | some (JVal.jnum _) => true
    | _ => false
  | _ => false

/-- Well-formed recipe step: a dict. -/
def stepWF (s : JVal) : Bool :=
  match s with
  | JVal.jobj _ => true
  | _ => false

/-- Does an aligner output step carry both timing fields? -/
def hasTiming (s : JVal) : Bool :=
  match s with
  | JVal.jobj o => objHas o "start_time" && objHas o "end_time"
  | _ => false

/-! ## The store (`utils/db_handler.py`) -/

/-- The two tables the extractor touches: `recipes` (also holding the
not-yet-extracted source rows, keyed by `video_id`) and
`skipped_videos`.  Skip rows carry only the reason here; the URL and
timestamp columns are never read by the verified code. -/
structure DB where
  recipes : List (String × JVal)
  skipped : List (String × String)

/-- First binding in an association list. -/
def assocFind {α : Type} : List (String × α) → String → Option α
  | [], _ => none
  | p :: rest, k => if p.1 = k then some p.2 else assocFind rest k

/-- Key membership in an association list. -/
def assocHas {α : Type} : List (String × α) → String → Bool
  | [], _ => false
  | p :: rest, k => if p.1 = k then true else assocHas rest k

/-- Delete every row with the given key (`video_id` is the primary
key, so at most one row matches). -/
def deleteRows {α : Type} : List (String × α) → String → List (String × α)
  | [], _ => []
  | p :: rest, id => if p.1 = id then deleteRows rest id else p :: deleteRows rest id

/-- Function `insert_skipped_video` (db_handler lines 110–122):
`ON CONFLICT (video_id) DO NOTHING` — the first reason wins. -/
def insertSkipped (db : DB) (id reason : String) : DB :=
  if assocHas db.skipped id then db
  else { db with skipped := db.skipped ++ [(id, reason)] }

/-- Function `delete_video` (db_handler lines 124–139). -/
def deleteVideo (db : DB) (id : String) : DB :=
  { db with recipes := deleteRows db.recipes id }

/-- Row replacement for the upsert (rows have unique `video_id`). -/
def upsertRows : List (String × JVal) → String → JVal → List (String × JVal)
  | [], id, v => [(id, v)]
  | p :: rest, id, v => if p.1 = id then (id, v) :: rest else p :: upsertRows rest id v

/-- Function `insert_or_update_video` (db_handler lines 69–90), restricted to
the `data` column: the denormalised `dish_name`/`ingredients`/`recipe`
columns are derived from `data` and never read back by this code. -/
def upsertVideo (db : DB) (id : String) (v : JVal) : DB :=
  { db with recipes := upsertRows db.recipes id v }

/-- The row for a given video id. -/
def lookupRecipe (db : DB) (id : String) : Option JVal :=
  assocFind db.recipes id

/-- The skip reason recorded for a given video id. -/
def lookupSkip (db : DB) (id : String) : Option String :=
  assocFind db.skipped id

/-- The selection predicate of `get_cleaned_videos` (db_handler lines
160–178): `data ? 'clean_description' AND data ? 'clean_captions' AND
NOT (data ? 'dish_name' AND data ? 'ingredients' AND data ? 'recipe')`. -/
def pendingForExtraction (v : JVal) : Bool :=
  match v with
  | JVal.jobj o =>
      (objHas o "clean_description" && objHas o "clean_captions")
      && !(objHas o "dish_name" && objHas o "ingredients" && objHas o "recipe")
  | _ => false

/-- Function `get_cleaned_videos`: the pending-for-extraction rows (the `ORDER
BY video_id` only fixes iteration order, which no claim depends on). -/
def getCleanedVideos (db : DB) : List (String × JVal) :=
  db.recipes.filter (fun p => pendingForExtraction p.2)

/-! ## The per-item driver (`run`, lines 230–293) -/

/-- The raw/intermediate text fields stripped at finalisation
(`_clean_extracted_data` lines 184–190). -/
def keysToRemove : List String :=
  ["raw_description", "raw_captions", "clean_description", "clean_captions", "captions_segments"]

/-- Function `_clean_extracted_data` (lines 183–203), with the wall-clock
`datetime.now(timezone.utc).isoformat()` as the explicit argument
`now`.  A non-dict `metadata` value raises at `.get` (surfacing in the
driver's item-level `except`). -/
def cleanExtractedData (now : String) (o : Obj) : Except String Obj :=
  let o1 := keysToRemove.foldl objPop o
  if objHas o1 "metadata" then
    match objGet o1 "metadata" with
    | some (JVal.jobj m) =>
        Except.ok (objSet o1 "metadata" (JVal.jobj
          [("collected_at", objGetD m "collected_at" JVal.jnull),
           ("cleaned_at", objGetD m "cleaned_at" JVal.jnull),
           ("extracted_at", JVal.jstr now),
           ("final_processing", JVal.jbool true)]))
    | _ => Except.error "AttributeError: get"
  else Except.ok o1

/-- The per-item outcome of one iteration of the `run` loop. -/
inductive Outcome where
  | skippedShortText
  | skippedValidation (reason : String)
  | succeeded
  | persistFailed
  | processingError (msg : String)

/-- A field read with `.get(k, "")` and then used in string
concatenation: raises `TypeError` for non-string values. -/
def asStr : JVal → Except String String
  | JVal.jstr s => Except.ok s
  | _ => Except.error "TypeError: str concat"

/-- Line 266–270: `_match_recipe_with_captions(extracted_info['recipe'],
captions_segments)` lifted to `JVal` arguments.  A non-list argument
makes the matcher's internal `try` fail and return the recipe value
unchanged. -/
def matchRecipeJ (recipe caps : JVal) : JVal :=
  match recipe, caps with
  | JVal.jarr rs, JVal.jarr cs => JVal.jarr (matchRecipeWithCaptions rs cs)
  | r, _ => r

/-- The `try` body of one iteration of the `run` loop (lines 231–282).
`llm` is the generative model, `persistOk` tells whether the store
write succeeds (`insert_or_update_video` returns `False` on failure),
`now` is the extraction timestamp. -/
def processVideoE (llm : String → Option String) (persistOk : Bool) (now : String)
    (db : DB) (id : String) (vdata : Obj) : Except String (DB × Outcome) :=
  match asStr (objGetD vdata "clean_description" (JVal.jstr "")) with
  | Except.error e => Except.error e
  | Except.ok clean_desc =>
    match asStr (objGetD vdata "clean_captions" (JVal.jstr "")) with
    | Except.error e => Except.error e
    | Except.ok clean_captions =>
      let total_text := clean_desc ++ " " ++ clean_captions
      if pyLen (pyStrip total_text) < 100 then
        Except.ok (deleteVideo (insertSkipped db id "Insufficient cleaned text") id,
          Outcome.skippedShortText)
      else
        let source_text := "설명: " ++ clean_desc ++ "\n자막: " ++ clean_captions
        match validateExtractedData (extractWithLLM llm source_text) with
        | Except.error e => Except.error e
        | Except.ok vr =>
          if vr.ok = false then
            Except.ok (deleteVideo (insertSkipped db id
                ("Quality validation failed: " ++ vr.reason)) id,
              Outcome.skippedValidation vr.reason)
          else
            let infoObj :=
              match vr.info with
              | some (JVal.jobj o) => o
              | _ => []
            let vd1 := objUpdate vdata infoObj
            let captions := objGetD vd1 "captions_segments" (JVal.jarr [])
            let recipeVal := objGetD infoObj "recipe" JVal.jnull
            let vd2 :=
              if pyTruthy captions && pyTruthy recipeVal then
                objSet vd1 "recipe" (matchRecipeJ recipeVal captions)
              else vd1
            match cleanExtractedData now vd2 with
            | Except.error e => Except.error e
            | Except.ok cleaned =>
              if persistOk then
                Except.ok (upsertVideo db id (JVal.jobj cleaned), Outcome.succeeded)
              else
                Except.ok (db, Outcome.persistFailed)

/-- One full iteration of the `run` loop: the item-level `except`
(lines 284–293) converts any exception into a skip record plus
deletion of the source row. -/
def processVideo (llm : String → Option String) (persistOk : Bool) (now : String)
    (db : DB) (id : String) (vdata : Obj) : DB × Outcome :=
  match processVideoE llm persistOk now db id vdata with
  | Except.ok r => r
  | Except.error e =>
      (deleteVideo (insertSkipped db id ("Processing error: " ++ e)) id,
        Outcome.processingError e)

/-! ## Concrete inputs used by the witnesses and counterexamples -/

/-- The end-to-end input object of spec §8 ("validator accepts,
normalizes category …"). -/
def scenarioObj : Obj :=
  [("dish_name", JVal.jstr "오징어볶음"),
   ("category", JVal.jstr "매콤한 오징어 볶음"),
   ("ingredients", JVal.jarr
     [JVal.jobj [("name", JVal.jstr "오징어(손질된 것)"), ("quantity", JVal.jstr "1마리")],
      JVal.jobj [("name", JVal.jstr "고추장"), ("quantity", JVal.jstr "2스푼")]]),
   ("recipe", JVal.jarr
     [JVal.jobj [("step", JVal.jnum 1), ("instruction", JVal.jstr "오징어를 손질하여 썰어둔다")],
      JVal.jobj [("step", JVal.jnum 2), ("instruction", JVal.jstr "양념을 넣고 볶는다")]]),
   ("difficulty", JVal.jstr ""),
   ("cooking_time", JVal.jstr "")]

/-- The spec §8 object after validation: the validator only fills in
`difficulty` and `cooking_time`. -/
def scenarioValidated : Obj :=
  [("dish_name", JVal.jstr "오징어볶음"),
   ("category", JVal.jstr "매콤한 오징어 볶음"),
   ("ingredients", JVal.jarr
     [JVal.jobj [("name", JVal.jstr "오징어(손질된 것)"), ("quantity", JVal.jstr "1마리")],
      JVal.jobj [("name", JVal.jstr "고추장"), ("quantity", JVal.jstr "2스푼")]]),
   ("recipe", JVal.jarr
     [JVal.jobj [("step", JVal.jnum 1), ("instruction", JVal.jstr "오징어를 손질하여 썰어둔다")],
      JVal.jobj [("step", JVal.jnum 2), ("instruction", JVal.jstr "양념을 넣고 볶는다")]]),
   ("difficulty", JVal.jstr "보통"),
   ("cooking_time", JVal.jstr "정보 없음")]

/-- Claim-side normal form: the category with all whitespace removed
(what claim C1 says the validator produces). -/
def removeWhitespace (s : String) : String :=
  ⟨s.data.filter (fun c => !pySpace c)⟩

/-- The spec §8 object with the `difficulty` member absent. -/
def scenarioNoDifficulty : Obj :=
  [("dish_name", JVal.jstr "오징어볶음"),
   ("category", JVal.jstr "매콤한 오징어 볶음"),
   ("ingredients", JVal.jarr
     [JVal.jobj [("name", JVal.jstr "오징어(손질된 것)"), ("quantity", JVal.jstr "1마리")],
      JVal.jobj [("name", JVal.jstr "고추장"), ("quantity", JVal.jstr "2스푼")]]),
   ("recipe", JVal.jarr
     [JVal.jobj [("step", JVal.jnum 1), ("instruction", JVal.jstr "오징어를 손질하여 썰어둔다")],
      JVal.jobj [("step", JVal.jnum 2), ("instruction", JVal.jstr "양념을 넣고 볶는다")]]),
   ("cooking_time", JVal.jstr "")]

/-- An object whose category trims to length < 2 AND whose ingredient
list is insufficient (all six fields present). -/
def shortCatObj : Obj :=
  [("dish_name", JVal.jstr "김치찜"),
   ("category", JVal.jstr "x"),
   ("ingredients", JVal.jarr []),
   ("recipe", JVal.jarr []),
   ("difficulty", JVal.jstr "보통"),
   ("cooking_time", JVal.jstr "30분")]

/-- A JSON object text containing the three keys the parser requires. -/
def goodJson3 : String :=
  "\x7b\"dish_name\":\"김치찜\",\"ingredients\":[],\"recipe\":[]\x7d"

/-- A model response whose only JSON object sits in an anonymous
(untagged) code fence. -/
def anonFenceText : String :=
  "Here is the result:\n```\n" ++ goodJson3 ++ "\n```"

/-- A model response that passes parsing, key checking and every
validator rule. -/
def fullJson : String :=
  "\x7b\"dish_name\":\"오징어볶음\",\"category\":\"오징어볶음\",\"ingredients\":[\x7b\"name\":\"오징어\",\"quantity\":\"1마리\"\x7d,\x7b\"name\":\"고추장\",\"quantity\":\"2스푼\"\x7d],\"recipe\":[\x7b\"step\":1,\"instruction\":\"abcdefghij\"\x7d,\x7b\"step\":2,\"instruction\":\"abcdefghijkl\"\x7d],\"difficulty\":\"보통\",\"cooking_time\":\"30분\"\x7d"

/-- A model that always answers `fullJson`. -/
def llmGood : String → Option String := fun _ => some fullJson

/-- A model whose transport always fails. -/
def llmDown : String → Option String := fun _ => none

/-- A string of 100 characters of cleaned text (the minimum the driver accepts). -/
def hundredChars : String := ⟨List.replicate 100 'a'⟩

/-- A pending source row: clean text present, extraction fields and
raw fields absent, metadata stamped by the cleaning stage. -/
def pendingRow : Obj :=
  [("clean_description", JVal.jstr hundredChars),
   ("clean_captions", JVal.jstr ""),
   ("metadata", JVal.jobj
     [("collected_at", JVal.jstr "2024-01-01T00:00:00+00:00"),
      ("cleaned_at", JVal.jstr "2024-01-02T00:00:00+00:00")])]

/-- A store holding exactly the pending row. -/
def dbOne : DB := ⟨[("vid1", JVal.jobj pendingRow)], []⟩

/-- A source row with both clean-text fields empty. -/
def emptyTextRow : Obj :=
  [("clean_description", JVal.jstr ""), ("clean_captions", JVal.jstr "")]

/-- A store holding exactly the empty-text row. -/
def dbEmptyText : DB := ⟨[("vid2", JVal.jobj emptyTextRow)], []⟩

/-- Three caption segments, deliberately unsorted. -/
def capsEx : List JVal :=
  [JVal.jobj [("text", JVal.jstr "b"), ("start", JVal.jnum 5), ("duration", JVal.jnum 2)],
   JVal.jobj [("text", JVal.jstr "a"), ("start", JVal.jnum (3 / 2)), ("duration", JVal.jnum 3)],
   JVal.jobj [("text", JVal.jstr "c"), ("start", JVal.jnum (29 / 4)), ("duration", JVal.jnum 1)]]

/-- Two recipe steps. -/
def stepsEx : List JVal :=
  [JVal.jobj [("step", JVal.jnum 1), ("instruction", JVal.jstr "첫 단계")],
   JVal.jobj [("step", JVal.jnum 2), ("instruction", JVal.jstr "둘째 단계")]]

/-! ## Association-list lemmas -/

theorem objGet_objSet_self (o : Obj) (k : String) (v : JVal) :
    objGet (objSet o k v) k = some v := by
  induction o with
  | nil => simp [objSet, objGet]
  | cons p rest ih =>
      by_cases h : p.1 = k
      · simp [objSet, objGet, h]
      · simp [objSet, objGet, h, ih]

theorem objGet_objSet_ne (o : Obj) (k k' : String) (v : JVal) (h : k' ≠ k) :
    objGet (objSet o k v) k' = objGet o k' := by
  induction o with
  | nil => simp [objSet, objGet, Ne.symm h]
  | cons p rest ih =>
      by_cases hp : p.1 = k
      · subst hp
        simp [objSet, objGet, Ne.symm h]
      · simp [objSet, objGet, hp, ih]

theorem objGetD_objSet_ne (o : Obj) (k k' : String) (v d : JVal) (h : k' ≠ k) :
    objGetD (objSet o k v) k' d = objGetD o k' d := by
  simp [objGetD, objGet_objSet_ne o k k' v h]

theorem objHas_objSet (o : Obj) (k k' : String) (v : JVal) :
    objHas (objSet o k v) k' = (objHas o k' || decide (k' = k)) := by
  induction o with
  | nil =>
      by_cases hk : k = k'
      · simp [objSet, objHas, hk]
      · simp [objSet, objHas, hk, Ne.symm hk]
  | cons p rest ih =>
      by_cases hp : p.1 = k
      · by_cases hk : k = k'
        · simp [objSet, objHas, hp, hk, hp.trans hk]
        · have hpk : ¬ p.1 = k' := by rw [hp]; exact hk
          simp [objSet, objHas, hp, hpk, Ne.symm hk]
      · by_cases hk : p.1 = k'
        · have hk2 : ¬ k' = k := by rw [← hk]; exact hp
          simp [objSet, objHas, hp, hk, hk2]
        · simp [objSet, objHas, hp, hk, ih]

theorem objSet_ne_nil (o : Obj) (k : String) (v : JVal) : objSet o k v ≠ [] := by
  cases o with
  | nil => simp [objSet]
  | cons p rest =>
      by_cases hp : p.1 = k <;> simp [objSet, hp]

theorem objHas_objPop (o : Obj) (k k' : String) :
    objHas (objPop o k) k' = (objHas o k' && !decide (k' = k)) := by
  induction o with
  | nil => simp [objPop, objHas]
  | cons p rest ih =>
      by_cases hp : p.1 = k
      · by_cases hk : p.1 = k'
        · have hk2 : k' = k := by rw [← hk, hp]
          subst hk2
          simp [objPop, objHas, hp, ih]
        · have hk2 : ¬ k = k' := by rw [← hp]; exact hk
          simp [objPop, objHas, hp, hk, hk2, ih]
      · by_cases hk : p.1 = k'
        · have hk2 : ¬ k' = k := by rw [← hk]; exact hp
          simp [objPop, objHas, hp, hk, hk2]
        · simp [objPop, objHas, hp, hk, ih]

theorem objGet_objPop_ne (o : Obj) (k k' : String) (h : k' ≠ k) :
    objGet (objPop o k) k' = objGet o k' := by
  induction o with
  | nil => simp [objPop, objGet]
  | cons p rest ih =>
      by_cases hp : p.1 = k
      · subst hp
        simp [objPop, objGet, Ne.symm h, ih]
      · by_cases hk : p.1 = k'
        · have hk2 : ¬ k' = k := by rw [← hk]; exact hp
          simp [objPop, objGet, hp, hk, hk2]
        · simp [objPop, objGet, hp, hk, ih]

theorem objHas_foldl_objPop (ks : List String) (o : Obj) (k : String) :
    objHas (ks.foldl objPop o) k = (objHas o k && !(ks.contains k)) := by
  induction ks generalizing o with
  | nil => simp
  | cons k0 rest ih =>
      by_cases hk : k = k0
      · subst hk
        simp [ih, objHas_objPop]
      · simp [ih, objHas_objPop, hk, Bool.and_assoc]

theorem objGet_foldl_objPop_ne (ks : List String) (o : Obj) (k : String)
    (h : ks.contains k = false) :
    objGet (ks.foldl objPop o) k = objGet o k := by
  induction ks generalizing o with
  | nil => simp
  | cons k0 rest ih =>
      simp only [List.contains_cons, Bool.or_eq_false_iff] at h
      have hk : k ≠ k0 := by
        intro hh
        subst hh
        simp at h
      simp [List.foldl_cons, ih _ h.2, objGet_objPop_ne _ _ _ hk]

theorem objHas_objUpdate (o i : Obj) (k : String) :
    objHas (objUpdate o i) k = (objHas o k || objHas i k) := by
  induction i generalizing o with
  | nil => simp [objUpdate, objHas]
  | cons p rest ih =>
      have hstep : objUpdate o (p :: rest) = objUpdate (objSet o p.1 p.2) rest := rfl
      rw [hstep, ih, objHas_objSet]
      by_cases hk : k = p.1
      · simp [objHas, hk.symm]
      · simp [objHas, Ne.symm hk, hk, Bool.or_assoc]

theorem assocFind_deleteRows {α : Type} (rows : List (String × α)) (id : String) :
    assocFind (deleteRows rows id) id = none := by
  induction rows with
  | nil => simp [deleteRows, assocFind]
  | cons p rest ih =>
      by_cases hp : p.1 = id
      · simp [deleteRows, hp, ih]
      · simp [deleteRows, assocFind, hp, ih]

theorem assocFind_upsertRows_self (rows : List (String × JVal)) (id : String) (v : JVal) :
    assocFind (upsertRows rows id v) id = some v := by
  induction rows with
  | nil => simp [upsertRows, assocFind]
  | cons p rest ih =>
      by_cases hp : p.1 = id
      · simp [upsertRows, hp, assocFind]
      · simp [upsertRows, hp, assocFind, ih]

theorem assocFind_append_self {α : Type} (rows : List (String × α)) (id : String) (v : α)
    (h : assocHas rows id = false) :
    assocFind (rows ++ [(id, v)]) id = some v := by
  induction rows with
  | nil => simp [assocFind]
  | cons p rest ih =>
      by_cases hp : p.1 = id
      · simp [assocHas, hp] at h
      · simp [assocHas, hp] at h
        simp [assocFind, hp, ih h]

/-! ## Validator structure lemmas -/

theorem difficultyStep_get_ne (o o1 : Obj) (k : String)
    (h : difficultyStep o = Except.ok o1) (hk : k ≠ "difficulty") :
    objGet o1 k = objGet o k := by
  unfold difficultyStep at h
  split at h
  · exact Except.noConfusion h
  · split at h
    · split at h
      · injection h with h2
        subst h2
        rfl
      · injection h with h2
        subst h2
        exact objGet_objSet_ne o "difficulty" k _ hk
    · injection h with h2
      subst h2
      exact objGet_objSet_ne o "difficulty" k _ hk

theorem cookingStep_get_ne (o o1 : Obj) (k : String)
    (h : cookingStep o = Except.ok o1) (hk : k ≠ "cooking_time") :
    objGet o1 k = objGet o k := by
  unfold cookingStep at h
  split at h
  · exact Except.noConfusion h
  · split at h
    · injection h with h2
      subst h2
      exact objGet_objSet_ne o "cooking_time" k _ hk
    · injection h with h2
      subst h2
      rfl

theorem categoryCheck_obj (o : Obj) (b : Bool) (r : String) (o2 : Obj)
    (h : categoryCheck o = Except.ok (b, r, o2)) : o2 = o := by
  unfold categoryCheck at h
  split at h
  · exact Except.noConfusion h
  · split at h
    · injection h with h2
      simp only [Prod.mk.injEq] at h2
      exact h2.2.2.symm
    · injection h with h2
      simp only [Prod.mk.injEq] at h2
      exact h2.2.2.symm

theorem validateObj_cases (o : Obj) (b : Bool) (r : String) (o2 : Obj)
    (h : validateObj o = Except.ok (b, r, o2)) :
    o2 = o ∨ ∃ o1, difficultyStep o = Except.ok o1 ∧ cookingStep o1 = Except.ok o2 := by
  unfold validateObj at h
  repeat' split at h
  all_goals
    first
      | exact Except.noConfusion h
      | (left
         injection h with h2
         simp only [Prod.mk.injEq] at h2
         exact h2.2.2.symm)
      | (rename_i x1 o1 heq1 x2 oc heq2
         have hoc := categoryCheck_obj oc b r o2 h
         right
         exact ⟨o1, heq1, by rw [hoc]; exact heq2⟩)

theorem validateExtractedData_obj_cases (o : Obj) (vr : VResult)
    (h : validateExtractedData (some (JVal.jobj o)) = Except.ok vr) :
    (vr.info = some (JVal.jobj o) ∧ vr.ok = false) ∨
    (∃ o2, vr.info = some (JVal.jobj o2) ∧
      validateObj o = Except.ok (vr.ok, vr.reason, o2)) := by
  simp only [validateExtractedData] at h
  split at h
  · injection h with h2
    subst h2
    left
    exact ⟨rfl, rfl⟩
  · split at h
    · exact Except.noConfusion h
    · injection h with h2
      subst h2
      left
      exact ⟨rfl, rfl⟩
    · split at h
      · exact Except.noConfusion h
      · rename_i b2 r2 o2 heq
        injection h with h2
        subst h2
        right
        exact ⟨o2, rfl, heq⟩

/-! ## Claim C1 -/

/-- C1 counterexample: on the spec's own §8 scenario the validator
accepts, but the returned record's `category` is the input verbatim
(still containing whitespace, not the canonical space-free form the
claim requires) and the first ingredient's name still carries its
parenthetical suffix. -/
theorem validator_no_normalization_cex :
    validateExtractedData (some (JVal.jobj scenarioObj)) =
      Except.ok ⟨true, "Valid", some (JVal.jobj scenarioValidated)⟩ ∧
    objGet scenarioValidated "category" = some (JVal.jstr "매콤한 오징어 볶음") ∧
    removeWhitespace "매콤한 오징어 볶음" = "매콤한오징어볶음" ∧
    "매콤한 오징어 볶음" ≠ "매콤한오징어볶음" ∧
    (match objGet scenarioValidated "ingredients" with
     | some (JVal.jarr (JVal.jobj ing :: _)) => objGet ing "name"
     | _ => none) = some (JVal.jstr "오징어(손질된 것)") :=
  ⟨rfl, rfl, by decide, by decide, rfl⟩

/-- C1 (amended): the validator normalizes nothing in `category` or
`ingredients` — every object it hands back carries those two fields
exactly as they came in; only `difficulty` and `cooking_time` are ever
rewritten. -/
theorem validator_preserves_category_and_ingredients
    (o : Obj) (vr : VResult)
    (h : validateExtractedData (some (JVal.jobj o)) = Except.ok vr)
    (o2 : Obj) (hinfo : vr.info = some (JVal.jobj o2)) :
    objGet o2 "category" = objGet o "category" ∧
    objGet o2 "ingredients" = objGet o "ingredients" := by
  rcases validateExtractedData_obj_cases o vr h with ⟨h1, _⟩ | ⟨o2x, h1, h2⟩
  · rw [h1] at hinfo
    injection hinfo with h3
    injection h3 with h4
    rw [← h4]
    exact ⟨rfl, rfl⟩
  · rw [h1] at hinfo
    injection hinfo with h3
    injection h3 with h4
    subst h4
    rcases validateObj_cases o vr.ok vr.reason o2x h2 with hcase | ⟨o1, hd, hc⟩
    · subst hcase
      exact ⟨rfl, rfl⟩
    · constructor
      · exact (cookingStep_get_ne o1 o2x "category" hc (by decide)).trans
          (difficultyStep_get_ne o o1 "category" hd (by decide))
      · exact (cookingStep_get_ne o1 o2x "ingredients" hc (by decide)).trans
          (difficultyStep_get_ne o o1 "ingredients" hd (by decide))

/-- Witness for C1's amended theorem at the §8 scenario input. -/
theorem validator_preserves_category_and_ingredients_witness :
    objGet scenarioValidated "category" = objGet scenarioObj "category" ∧
    objGet scenarioValidated "ingredients" = objGet scenarioObj "ingredients" :=
  validator_preserves_category_and_ingredients scenarioObj
    ⟨true, "Valid", some (JVal.jobj scenarioValidated)⟩ rfl scenarioValidated rfl

/-! ## Difficulty-field lemmas (claim C4) -/

theorem validateObj_true_path (o : Obj) (r : String) (o2 : Obj)
    (h : validateObj o = Except.ok (true, r, o2)) :
    ∃ o1, difficultyStep o = Except.ok o1 ∧ cookingStep o1 = Except.ok o2 := by
  unfold validateObj at h
  repeat' split at h
  all_goals
    first
      | exact Except.noConfusion h
      | (injection h with h2
         simp only [Prod.mk.injEq] at h2
         exact absurd h2.1 (by simp))
      | (rename_i x1 o1 heq1 x2 oc heq2
         have hoc := categoryCheck_obj oc true r o2 h
         exact ⟨o1, heq1, by rw [hoc]; exact heq2⟩)

theorem difficultyStep_of_str (o : Obj) (d : String)
    (hget : objGet o "difficulty" = some (JVal.jstr d)) :
    difficultyStep o = Except.ok
      (if pyStrip d ≠ "" ∧ validDifficulties.contains (pyStrip d) then o
       else objSet o "difficulty" (JVal.jstr "보통")) := by
  unfold difficultyStep
  rw [show objGetD o "difficulty" (JVal.jstr "") = JVal.jstr d from by simp [objGetD, hget]]
  simp only [pyStripV]
  by_cases h1 : pyStrip d = ""
  · simp [h1]
  · by_cases h2 : pyStrip d ∈ validDifficulties
    · simp [h1, h2]
    · simp [h1, h2]

theorem objGet_ite_objSet (c : Prop) [Decidable c] (o : Obj) (k k2 : String) (v : JVal)
    (hk : k2 ≠ k) :
    objGet (if c then o else objSet o k v) k2 = objGet o k2 := by
  split
  · rfl
  · exact objGet_objSet_ne o k k2 v hk

theorem firstMissing_objSet_congr (o : Obj) (k : String) (v w : JVal) (fs : List String) :
    firstMissing (JVal.jobj (objSet o k v)) fs = firstMissing (JVal.jobj (objSet o k w)) fs := by
  induction fs with
  | nil => rfl
  | cons f rest ih =>
      simp only [firstMissing, pyIn, objHas_objSet]
      cases objHas o f || decide (f = k) with
      | false => rfl
      | true => exact ih

theorem categoryCheck_decision_congr (o o2 : Obj)
    (h : objGet o "category" = objGet o2 "category") :
    (categoryCheck o).map (fun t => (t.1, t.2.1)) =
    (categoryCheck o2).map (fun t => (t.1, t.2.1)) := by
  unfold categoryCheck
  rw [show objGetD o "category" (JVal.jstr "") = objGetD o2 "category" (JVal.jstr "") from by
    simp [objGetD, h]]
  cases pyStripV (objGetD o2 "category" (JVal.jstr "")) with
  | error e => rfl
  | ok c =>
      dsimp only
      by_cases hc : c = "" ∨ pyLen c < 2
      · rw [if_pos hc, if_pos hc]
        rfl
      · rw [if_neg hc, if_neg hc]
        rfl

theorem tail_decision_congr (o1 o2 : Obj)
    (hct : objGet o1 "cooking_time" = objGet o2 "cooking_time")
    (hcat : objGet o1 "category" = objGet o2 "category") :
    Except.map (fun t : Bool × String × Obj => (t.1, t.2.1))
      (match cookingStep o1 with
       | Except.error e => Except.error e
       | Except.ok ox => categoryCheck ox) =
    Except.map (fun t : Bool × String × Obj => (t.1, t.2.1))
      (match cookingStep o2 with
       | Except.error e => Except.error e
       | Except.ok ox => categoryCheck ox) := by
  unfold cookingStep
  rw [show objGetD o1 "cooking_time" (JVal.jstr "") = objGetD o2 "cooking_time" (JVal.jstr "") from by
    simp [objGetD, hct]]
  cases pyStripV (objGetD o2 "cooking_time" (JVal.jstr "")) with
  | error e => rfl
  | ok ct =>
      dsimp only
      by_cases h : ct = ""
      · rw [if_pos h, if_pos h]
        apply categoryCheck_decision_congr
        rw [objGet_objSet_ne o1 "cooking_time" "category" _ (by decide),
            objGet_objSet_ne o2 "cooking_time" "category" _ (by decide)]
        exact hcat
      · rw [if_neg h, if_neg h]
        exact categoryCheck_decision_congr o1 o2 hcat

theorem validateObj_decision_set_difficulty (o : Obj) (d d2 : String) :
    (validateObj (objSet o "difficulty" (JVal.jstr d))).map (fun t => (t.1, t.2.1)) =
    (validateObj (objSet o "difficulty" (JVal.jstr d2))).map (fun t => (t.1, t.2.1)) := by
  unfold validateObj
  rw [objGetD_objSet_ne o "difficulty" "dish_name" (JVal.jstr d) _ (by decide),
      objGetD_objSet_ne o "difficulty" "dish_name" (JVal.jstr d2) _ (by decide)]
  cases pyStripV (objGetD o "dish_name" (JVal.jstr "")) with
  | error e => rfl
  | ok dish =>
      dsimp only
      by_cases hd : dish = "" ∨ pyLen dish < 2
      · rw [if_pos hd, if_pos hd]
        rfl
      · rw [if_neg hd, if_neg hd]
        rw [objGetD_objSet_ne o "difficulty" "ingredients" (JVal.jstr d) _ (by decide),
            objGetD_objSet_ne o "difficulty" "ingredients" (JVal.jstr d2) _ (by decide)]
        cases objGetD o "ingredients" (JVal.jarr []) with
        | jnull => rfl
        | jbool b => rfl
        | jnum q => rfl
        | jstr s => rfl
        | jobj f => rfl
        | jarr ings =>
            dsimp only
            by_cases hl : ings.length < 2
            · rw [if_pos hl, if_pos hl]
              rfl
            · rw [if_neg hl, if_neg hl]
              cases countValid ingValid ings with
              | error e => rfl
              | ok nv =>
                  dsimp only
                  by_cases hnv : nv < 2
                  · rw [if_pos hnv, if_pos hnv]
                    rfl
                  · rw [if_neg hnv, if_neg hnv]
                    rw [objGetD_objSet_ne o "difficulty" "recipe" (JVal.jstr d) _ (by decide),
                        objGetD_objSet_ne o "difficulty" "recipe" (JVal.jstr d2) _ (by decide)]
                    cases objGetD o "recipe" (JVal.jarr []) with
                    | jnull => rfl
                    | jbool b => rfl
                    | jnum q => rfl
                    | jstr s => rfl
                    | jobj f => rfl
                    | jarr steps =>
                        dsimp only
                        by_cases hsl : steps.length < 2
                        · rw [if_pos hsl, if_pos hsl]
                          rfl
                        · rw [if_neg hsl, if_neg hsl]
                          cases countValid stepValid steps with
                          | error e => rfl
                          | ok ns =>
                              dsimp only
                              by_cases hns : ns < 2
                              · rw [if_pos hns, if_pos hns]
                                rfl
                              · rw [if_neg hns, if_neg hns]
                                rw [difficultyStep_of_str _ d
                                      (objGet_objSet_self o "difficulty" (JVal.jstr d)),
                                    difficultyStep_of_str _ d2
                                      (objGet_objSet_self o "difficulty" (JVal.jstr d2))]
                                apply tail_decision_congr
                                · exact ((objGet_ite_objSet _ _ _ _ _ (by decide)).trans
                                      ((objGet_objSet_ne o "difficulty" "cooking_time" _ (by decide)).trans
                                        (((objGet_ite_objSet _ _ _ _ _ (by decide)).trans
                                          (objGet_objSet_ne o "difficulty" "cooking_time" _ (by decide))).symm)))
                                · exact ((objGet_ite_objSet _ _ _ _ _ (by decide)).trans
                                      ((objGet_objSet_ne o "difficulty" "category" _ (by decide)).trans
                                        (((objGet_ite_objSet _ _ _ _ _ (by decide)).trans
                                          (objGet_objSet_ne o "difficulty" "category" _ (by decide))).symm)))

theorem map_decision_of_validateObj (oA oB : Obj)
    (hobj : (validateObj oA).map (fun t : Bool × String × Obj => (t.1, t.2.1)) =
            (validateObj oB).map (fun t : Bool × String × Obj => (t.1, t.2.1))) :
    Except.map (fun r : VResult => (r.ok, r.reason))
      (match validateObj oA with
       | Except.error e => Except.error e
       | Except.ok (b, r, o2) => Except.ok ⟨b, r, some (JVal.jobj o2)⟩) =
    Except.map (fun r : VResult => (r.ok, r.reason))
      (match validateObj oB with
       | Except.error e => Except.error e
       | Except.ok (b, r, o2) => Except.ok ⟨b, r, some (JVal.jobj o2)⟩) := by
  cases hA : validateObj oA with
  | error e =>
      cases hB : validateObj oB with
      | error e2 =>
          rw [hA, hB] at hobj
          simp only [Except.map] at hobj
          injection hobj with h3
          rw [h3]
      | ok t =>
          rw [hA, hB] at hobj
          simp only [Except.map] at hobj
          exact Except.noConfusion hobj
  | ok t =>
      cases hB : validateObj oB with
      | error e2 =>
          rw [hA, hB] at hobj
          simp only [Except.map] at hobj
          exact Except.noConfusion hobj
      | ok t2 =>
          rw [hA, hB] at hobj
          simp only [Except.map] at hobj
          injection hobj with h3
          have h4 := Prod.mk.injEq _ _ _ _ |>.mp h3
          show Except.ok (t.1, t.2.1) = Except.ok (t2.1, t2.2.1)
          rw [h4.1, h4.2]

theorem validate_decision_set_difficulty (o : Obj) (d d2 : String) :
    (validateExtractedData (some (JVal.jobj (objSet o "difficulty" (JVal.jstr d))))).map
      (fun r : VResult => (r.ok, r.reason)) =
    (validateExtractedData (some (JVal.jobj (objSet o "difficulty" (JVal.jstr d2))))).map
      (fun r : VResult => (r.ok, r.reason)) := by
  have hA : (objSet o "difficulty" (JVal.jstr d)).isEmpty = false := by
    cases hh : objSet o "difficulty" (JVal.jstr d) with
    | nil => exact absurd hh (objSet_ne_nil o _ _)
    | cons a b => rfl
  have hB : (objSet o "difficulty" (JVal.jstr d2)).isEmpty = false := by
    cases hh : objSet o "difficulty" (JVal.jstr d2) with
    | nil => exact absurd hh (objSet_ne_nil o _ _)
    | cons a b => rfl
  unfold validateExtractedData
  dsimp only
  rw [show pyTruthy (JVal.jobj (objSet o "difficulty" (JVal.jstr d))) = true from by
        simp [pyTruthy, hA],
      show pyTruthy (JVal.jobj (objSet o "difficulty" (JVal.jstr d2))) = true from by
        simp [pyTruthy, hB]]
  rw [if_neg (by simp), if_neg (by simp)]
  rw [firstMissing_objSet_congr o "difficulty" (JVal.jstr d) (JVal.jstr d2) requiredFields]
  cases firstMissing (JVal.jobj (objSet o "difficulty" (JVal.jstr d2))) requiredFields with
  | error e => rfl
  | ok mo =>
      cases mo with
      | some f => rfl
      | none => exact map_decision_of_validateObj _ _ (validateObj_decision_set_difficulty o d d2)

/-! ## Claim C4 -/

/-- C4 counterexample: an object identical to the accepted §8 scenario
but with the `difficulty` member absent is rejected with "Missing
field: difficulty" — absence is not coerced to "보통" as the claim
says; only a present (possibly empty or invalid) value is. -/
theorem difficulty_missing_rejected_cex :
    objHas scenarioNoDifficulty "difficulty" = false ∧
    validateExtractedData (some (JVal.jobj scenarioNoDifficulty)) =
      Except.ok ⟨false, "Missing field: difficulty", some (JVal.jobj scenarioNoDifficulty)⟩ :=
  ⟨by decide, rfl⟩

/-- C4 (amended): for objects whose `difficulty` field is PRESENT as a
string, the accepted record's difficulty is the original value when its
stripped form is a non-empty member of the enumeration and "보통"
otherwise; and the accept/reject decision together with the rejection
reason never depends on the difficulty string's value (a present
difficulty value never causes rejection).  An absent field, by
contrast, is rejected by the required-field rule (see the
counterexample). -/
theorem difficulty_field_behavior :
    (∀ (o : Obj) (d : String) (vr : VResult) (o2 : Obj),
        objGet o "difficulty" = some (JVal.jstr d) →
        validateExtractedData (some (JVal.jobj o)) = Except.ok vr →
        vr.ok = true → vr.info = some (JVal.jobj o2) →
        objGet o2 "difficulty" = some (JVal.jstr
          (if pyStrip d ≠ "" ∧ validDifficulties.contains (pyStrip d) then d else "보통"))) ∧
    (∀ (o : Obj) (d d2 : String),
        (validateExtractedData (some (JVal.jobj (objSet o "difficulty" (JVal.jstr d))))).map
          (fun r : VResult => (r.ok, r.reason)) =
        (validateExtractedData (some (JVal.jobj (objSet o "difficulty" (JVal.jstr d2))))).map
          (fun r : VResult => (r.ok, r.reason))) := by
  constructor
  · intro o d vr o2 hget h hok hinfo
    rcases validateExtractedData_obj_cases o vr h with ⟨_, hfalse⟩ | ⟨o2x, h1, h2⟩
    · rw [hok] at hfalse
      exact absurd hfalse (by simp)
    · rw [h1] at hinfo
      injection hinfo with h3
      injection h3 with h4
      subst h4
      rw [hok] at h2
      obtain ⟨o1, hd, hc⟩ := validateObj_true_path o vr.reason o2x h2
      have hd2 := difficultyStep_of_str o d hget
      rw [hd] at hd2
      injection hd2 with h5
      rw [cookingStep_get_ne o1 o2x "difficulty" hc (by decide), h5]
      by_cases hcond : pyStrip d ≠ "" ∧ validDifficulties.contains (pyStrip d)
      · rw [if_pos hcond, if_pos hcond]
        exact hget
      · rw [if_neg hcond, if_neg hcond]
        exact objGet_objSet_self o "difficulty" _
  · intro o d d2
    exact validate_decision_set_difficulty o d d2

/-- Witness for C4's amended theorem: the §8 scenario (empty
difficulty coerced to "보통") and a concrete decision-independence
instance. -/
theorem difficulty_field_behavior_witness :
    objGet scenarioValidated "difficulty" = some (JVal.jstr "보통") ∧
    (validateExtractedData (some (JVal.jobj (objSet shortCatObj "difficulty"
        (JVal.jstr "아주 이상함"))))).map (fun r : VResult => (r.ok, r.reason)) =
    (validateExtractedData (some (JVal.jobj (objSet shortCatObj "difficulty"
        (JVal.jstr "쉬움"))))).map (fun r : VResult => (r.ok, r.reason)) := by
  constructor
  · have h := difficulty_field_behavior.1 scenarioObj ""
      ⟨true, "Valid", some (JVal.jobj scenarioValidated)⟩ scenarioValidated rfl rfl rfl rfl
    have he : (if pyStrip "" ≠ "" ∧ validDifficulties.contains (pyStrip "") then ("" : String)
        else "보통") = "보통" := by decide
    rw [he] at h
    exact h
  · exact difficulty_field_behavior.2 shortCatObj "아주 이상함" "쉬움"

/-! ## Claim C6 -/

/-- C6 counterexample: for an object whose category trims to length < 2
AND whose ingredient list is insufficient, the rejection reason is the
ingredients one — the category check does not run first. -/
theorem category_after_ingredients_cex :
    validateExtractedData (some (JVal.jobj shortCatObj)) =
      Except.ok ⟨false, "Insufficient ingredients: 0", some (JVal.jobj shortCatObj)⟩ ∧
    pyLen (pyStrip "x") < 2 ∧
    "Insufficient ingredients: 0" ≠ "Category name too short or empty" :=
  ⟨rfl, by decide, by decide⟩

/-- C6 (amended): the validator checks `ingredients` BEFORE the
category length rule (which actually runs last): every object carrying
all six fields, an acceptable dish name and an ingredient list of
length < 2 is rejected with "Insufficient ingredients: <n>" no matter
what its category is. -/
theorem insufficient_ingredients_reason_precedence
    (o : Obj) (dn : String) (xs : List JVal)
    (hall : requiredFields.all (fun f => objHas o f) = true)
    (hdn : objGet o "dish_name" = some (JVal.jstr dn))
    (hdnok : ¬ (pyStrip dn = "" ∨ pyLen (pyStrip dn) < 2))
    (hing : objGet o "ingredients" = some (JVal.jarr xs))
    (hlen : xs.length < 2) :
    validateExtractedData (some (JVal.jobj o)) =
      Except.ok ⟨false, "Insufficient ingredients: " ++ toString xs.length,
        some (JVal.jobj o)⟩ := by
  have hne : o.isEmpty = false := by
    cases o with
    | nil => simp [requiredFields, objHas] at hall
    | cons a b => rfl
  have hfm : ∀ fs : List String, fs.all (fun f => objHas o f) = true →
      firstMissing (JVal.jobj o) fs = Except.ok none := by
    intro fs
    induction fs with
    | nil => intro _; rfl
    | cons f rest ih =>
        intro hh
        simp only [List.all_cons, Bool.and_eq_true] at hh
        simp [firstMissing, pyIn, hh.1, ih hh.2]
  have hv : validateObj o =
      Except.ok (false, "Insufficient ingredients: " ++ toString xs.length, o) := by
    unfold validateObj
    rw [show objGetD o "dish_name" (JVal.jstr "") = JVal.jstr dn from by simp [objGetD, hdn]]
    simp only [pyStripV]
    rw [if_neg hdnok]
    rw [show objGetD o "ingredients" (JVal.jarr []) = JVal.jarr xs from by
      simp [objGetD, hing]]
    dsimp only
    rw [if_pos hlen]
  unfold validateExtractedData
  dsimp only
  rw [show pyTruthy (JVal.jobj o) = true from by simp [pyTruthy, hne]]
  rw [if_neg (by simp)]
  rw [hfm requiredFields hall]
  dsimp only
  rw [hv]

/-- Witness for C6's amended theorem at the concrete `shortCatObj`. -/
theorem insufficient_ingredients_reason_precedence_witness :
    validateExtractedData (some (JVal.jobj shortCatObj)) =
      Except.ok ⟨false, "Insufficient ingredients: " ++ toString (List.length ([] : List JVal)),
        some (JVal.jobj shortCatObj)⟩ :=
  insufficient_ingredients_reason_precedence shortCatObj "김치찜" []
    (by decide) rfl (by decide) rfl (by decide)

/-! ## Fence-search lemmas (claim C5) -/

theorem splitFirst_skip (p0 : Char) (pt : List Char) (pre rest : List Char)
    (hpre : ∀ c ∈ pre, c ≠ p0) :
    splitFirst (p0 :: pt) (pre ++ rest) =
      match splitFirst (p0 :: pt) rest with
      | some (a, b) => some (pre ++ a, b)
      | none => none := by
  induction pre with
  | nil =>
      cases h : splitFirst (p0 :: pt) rest with
      | none => simp [h]
      | some pr => simp [h]
  | cons c cs ih =>
      have hc : c ≠ p0 := hpre c (by simp)
      have hpre2 : ∀ x ∈ cs, x ≠ p0 := fun x hx => hpre x (by simp [hx])
      simp only [List.cons_append, splitFirst, List.isPrefixOf]
      simp only [show (p0 == c) = false from by simp [Ne.symm hc],
        Bool.false_and, Bool.false_eq_true, if_false, List.append_eq]
      rw [ih hpre2]
      cases h : splitFirst (p0 :: pt) rest with
      | none => rfl
      | some pr => simp

theorem isPrefixOf_append_self (l r : List Char) : l.isPrefixOf (l ++ r) = true := by
  induction l with
  | nil => simp [List.isPrefixOf]
  | cons a as ih => simp [List.isPrefixOf, ih]

theorem splitFirst_here (pat rest : List Char) :
    splitFirst pat (pat ++ rest) = some ([], rest) := by
  cases pat with
  | nil =>
      cases rest with
      | nil => rfl
      | cons c r => simp [splitFirst, List.isPrefixOf]
  | cons p0 pt =>
      have h1 : List.isPrefixOf (p0 :: pt) ((p0 :: pt) ++ rest) = true :=
        isPrefixOf_append_self (p0 :: pt) rest
      simp only [List.cons_append] at h1
      simp only [List.cons_append, splitFirst, h1, if_true]
      simp [List.drop_left]

theorem string_data_append (a b : String) : (a ++ b).data = a.data ++ b.data := rfl

theorem fencedJsonInterior_structured (pre inner post : String)
    (hpre : ∀ c ∈ pre.data, c ≠ '\x60')
    (hinner : ∀ c ∈ inner.data, c ≠ '\x60') :
    fencedJsonInterior ((pre ++ "```json\n" ++ inner ++ "```" ++ post).data) =
      some inner.data := by
  have hdata : (pre ++ "```json\n" ++ inner ++ "```" ++ post).data =
      pre.data ++ ("```json\n".data ++ (inner.data ++ ("```".data ++ post.data))) := by
    simp [string_data_append, List.append_assoc]
  rw [hdata]
  unfold fencedJsonInterior
  rw [show ("```json\n".data : List Char) = '\x60' :: "``json\n".data from rfl]
  rw [splitFirst_skip '\x60' _ pre.data _ hpre]
  rw [splitFirst_here]
  dsimp only
  rw [show (['\x60', '\x60', '\x60'] : List Char) = '\x60' :: ['\x60', '\x60'] from rfl]
  rw [splitFirst_skip '\x60' _ inner.data _ hinner]
  rw [splitFirst_here]
  dsimp only
  simp

/-! ## Claim C5 -/

/-- C5 counterexample: a model response whose only JSON object (a valid
object carrying the three required keys) sits in an anonymous ``` ... ```
fence is NOT parsed: the extractor returns `None`. -/
theorem anonymous_fence_not_parsed_cex :
    anonFenceText = "Here is the result:\n```\n" ++ goodJson3 ++ "\n```" ∧
    jsonParse goodJson3.data =
      some (JVal.jobj [("dish_name", JVal.jstr "김치찜"),
        ("ingredients", JVal.jarr []), ("recipe", JVal.jarr [])]) ∧
    extractParse anonFenceText = none :=
  ⟨rfl, rfl, rfl⟩

/-- C5 (amended): only ```json-tagged fences are recognised — for any
text containing one (with no stray backticks before the fence or inside
it) the parser decodes exactly the fence's stripped interior; when no
```json fence is found it falls back to decoding the full stripped
text.  Anonymous ``` fences are not recognised (see the
counterexample). -/
theorem json_fence_extraction :
    (∀ pre inner post : String,
        (∀ c ∈ pre.data, c ≠ '\x60') → (∀ c ∈ inner.data, c ≠ '\x60') →
        extractParse (pre ++ "```json\n" ++ inner ++ "```" ++ post) =
          parseChecked (stripChars inner.data)) ∧
    (∀ s : String, fencedJsonInterior s.data = none →
        extractParse s = parseChecked (stripChars s.data)) ∧
    extractParse anonFenceText = none := by
  refine ⟨?_, ?_, rfl⟩
  · intro pre inner post hpre hinner
    unfold extractParse
    rw [fencedJsonInterior_structured pre inner post hpre hinner]
  · intro s hs
    unfold extractParse
    rw [hs]

/-- Witness for C5's amended theorem at a concrete fenced response. -/
theorem json_fence_extraction_witness :
    extractParse ("Result:\n" ++ "```json\n" ++ goodJson3 ++ "```" ++ " 끝") =
      parseChecked (stripChars goodJson3.data) ∧
    parseChecked (stripChars goodJson3.data) =
      some (JVal.jobj [("dish_name", JVal.jstr "김치찜"),
        ("ingredients", JVal.jarr []), ("recipe", JVal.jarr [])]) :=
  ⟨json_fence_extraction.1 "Result:\n" goodJson3 " 끝" (by decide) (by decide), rfl⟩

/-! ## Alignment lemmas (claims C2 and C10) -/

theorem div_mul_lt_of_lt (i S C : Nat) (hi : i < S) (hC : 0 < C) :
    (i : Rat) / (S : Rat) * (C : Rat) < (C : Rat) := by
  have hS : (0 : Rat) < (S : Rat) := by
    have h0 : 0 < S := lt_of_le_of_lt (Nat.zero_le i) hi
    exact_mod_cast h0
  have h1 : (i : Rat) / (S : Rat) < 1 := by
    rw [div_lt_one hS]
    exact_mod_cast hi
  calc (i : Rat) / (S : Rat) * (C : Rat) < 1 * (C : Rat) := by
        apply mul_lt_mul_of_pos_right h1
        exact_mod_cast hC
    _ = (C : Rat) := one_mul _

theorem nonneg_div_mul (i S C : Nat) : (0 : Rat) ≤ (i : Rat) / (S : Rat) * (C : Rat) := by
  positivity

theorem specSegIdx_lt (S C i : Nat) (hi : i < S) (hC : 0 < C) : specSegIdx S C i < C := by
  unfold specSegIdx
  have h1 : Int.floor ((i : Rat) / (S : Rat) * (C : Rat)) < (C : Int) := by
    rw [Int.floor_lt]
    push_cast
    exact div_mul_lt_of_lt i S C hi hC
  have h0 : 0 ≤ Int.floor ((i : Rat) / (S : Rat) * (C : Rat)) :=
    Int.floor_nonneg.mpr (nonneg_div_mul i S C)
  omega

theorem pyInt_spec (i S C : Nat) :
    pyInt ((i : Rat) / (S : Rat) * (C : Rat)) = (specSegIdx S C i : Int) := by
  unfold pyInt specSegIdx
  rw [if_pos (nonneg_div_mul i S C)]
  rw [Int.toNat_of_nonneg (Int.floor_nonneg.mpr (nonneg_div_mul i S C))]

theorem capGetStart_of_wf (c : JVal) (h : capWF c = true) (d : Rat) :
    capGetStart c d = Except.ok (specStart c) := by
  cases c with
  | jnull => simp [capWF] at h
  | jbool b => simp [capWF] at h
  | jnum q => simp [capWF] at h
  | jstr s => simp [capWF] at h
  | jarr xs => simp [capWF] at h
  | jobj o =>
      cases hg : objGet o "start" with
      | none => simp [capWF, hg] at h
      | some v =>
          cases v with
          | jnum q => simp [capGetStart, specStart, hg]
          | jnull => simp [capWF, hg] at h
          | jbool b => simp [capWF, hg] at h
          | jstr s => simp [capWF, hg] at h
          | jarr xs => simp [capWF, hg] at h
          | jobj o2 => simp [capWF, hg] at h

theorem mapExc_capKeyed_wf (caps : List JVal) (h : ∀ c ∈ caps, capWF c = true) :
    mapExc capKeyed caps = Except.ok (caps.map (fun c => (specStart c, c))) := by
  induction caps with
  | nil => rfl
  | cons c rest ih =>
      have hc := capGetStart_of_wf c (h c (by simp)) 0
      simp only [mapExc, capKeyed, hc, ih (fun x hx => h x (by simp [hx])), List.map_cons]

theorem getD_mem {α : Type} (l : List α) (n : Nat) (d : α) (h : n < l.length) :
    l.getD n d ∈ l := by
  induction l generalizing n with
  | nil => simp at h
  | cons a rest ih =>
      cases n with
      | zero => simp [List.getD_cons_zero]
      | succ m =>
          rw [List.getD_cons_succ]
          exact List.mem_cons_of_mem a (ih m (by simpa using h))

theorem getLastD_mem {α : Type} (l : List α) (d : α) (h : l ≠ []) :
    l.getLast?.getD d ∈ l := by
  rw [List.getLast?_eq_getLast l h]
  simp only [Option.getD_some]
  exact List.getLast_mem h

theorem alignOne_spec (sorted : List JVal) (S C i : Nat) (st : JVal)
    (hi : i < S) (hC : 0 < C) (hlen : sorted.length = C)
    (hwf : ∀ c ∈ sorted, capWF c = true) (hst : stepWF st = true) :
    alignOne sorted C S i st = Except.ok (specStepOut sorted S C i st) := by
  obtain ⟨o, rfl⟩ : ∃ o, st = JVal.jobj o := by
    cases st with
    | jobj o => exact ⟨o, rfl⟩
    | jnull => simp [stepWF] at hst
    | jbool b => simp [stepWF] at hst
    | jnum q => simp [stepWF] at hst
    | jstr s => simp [stepWF] at hst
    | jarr xs => simp [stepWF] at hst
  have hseg : specSegIdx S C i < C := specSegIdx_lt S C i hi hC
  have hmem : sorted.getD (specSegIdx S C i) (JVal.jobj []) ∈ sorted :=
    getD_mem _ _ _ (by rw [hlen]; exact hseg)
  unfold alignOne
  rw [pyInt_spec i S C]
  rw [if_pos (by exact_mod_cast hseg : ((specSegIdx S C i : Nat) : Int) < (C : Int))]
  rw [Int.toNat_natCast]
  rw [capGetStart_of_wf _ (hwf _ hmem) 0]
  dsimp only
  by_cases h2 : i + 1 < S
  · have hseg2 : specSegIdx S C (i + 1) < C := specSegIdx_lt S C (i + 1) h2 hC
    have hmem2 : sorted.getD (specSegIdx S C (i + 1)) (JVal.jobj []) ∈ sorted :=
      getD_mem _ _ _ (by rw [hlen]; exact hseg2)
    rw [if_pos h2, pyInt_spec (i + 1) S C]
    rw [if_pos (by exact_mod_cast hseg2 : ((specSegIdx S C (i + 1) : Nat) : Int) < (C : Int))]
    rw [Int.toNat_natCast]
    rw [capGetStart_of_wf _ (hwf _ hmem2) _]
    dsimp only [pyGetD]
    unfold specStepOut specEndAt specStartAt specCopyField
    rw [if_neg (by omega : ¬ i + 1 = S), if_pos hseg2]
  · have hne : sorted ≠ [] := by
      intro hh
      rw [hh] at hlen
      simp at hlen
      omega
    have hmeml : sorted.getLast?.getD (JVal.jobj []) ∈ sorted := getLastD_mem _ _ hne
    rw [if_neg h2]
    rw [capGetStart_of_wf _ (hwf _ hmeml) _]
    dsimp only [pyGetD]
    unfold specStepOut specEndAt specStartAt specCopyField
    rw [if_pos (by omega : i + 1 = S)]

theorem mapIdx_shift {α β : Type} (f : Nat → α → β) (l : List α) (i : Nat) :
    l.mapIdx (fun j x => f (i + (j + 1)) x) = l.mapIdx (fun j x => f ((i + 1) + j) x) := by
  have hfx : (fun j x => f (i + (j + 1)) x) = (fun j x => f ((i + 1) + j) x) := by
    funext j x
    congr 1
    omega
  rw [hfx]

theorem alignLoop_spec (sorted : List JVal) (S C : Nat)
    (hC : 0 < C) (hlen : sorted.length = C)
    (hwf : ∀ c ∈ sorted, capWF c = true) :
    ∀ (rest : List JVal) (i : Nat), (∀ s ∈ rest, stepWF s = true) → i + rest.length = S →
    alignLoop sorted C S i rest =
      Except.ok (rest.mapIdx (fun j st => specStepOut sorted S C (i + j) st)) := by
  intro rest
  induction rest with
  | nil =>
      intro i _ _
      rfl
  | cons st rest2 ih =>
      intro i hst hiS
      have hi : i < S := by
        simp only [List.length_cons] at hiS
        omega
      have h1 := alignOne_spec sorted S C i st hi hC hlen hwf (hst st (by simp))
      simp only [alignLoop, h1]
      rw [ih (i + 1) (fun s hs => hst s (by simp [hs])) (by
        simp only [List.length_cons] at hiS
        omega)]
      rw [List.mapIdx_cons]
      rw [← mapIdx_shift (fun k st => specStepOut sorted S C k st) rest2 i]
      simp

theorem align_eq_spec_aux (steps caps : List JVal)
    (hs : ∀ s ∈ steps, stepWF s = true) (hc : ∀ c ∈ caps, capWF c = true) :
    matchRecipeWithCaptions steps caps = specAlign steps caps := by
  unfold matchRecipeWithCaptions specAlign
  by_cases he : steps.isEmpty || caps.isEmpty
  · rw [if_pos he, if_pos he]
  · rw [if_neg he, if_neg he]
    have hcne : caps ≠ [] := by
      intro hh
      apply he
      simp [hh]
    have hC : 0 < caps.length := List.length_pos.mpr hcne
    unfold alignBody
    rw [mapExc_capKeyed_wf caps hc]
    dsimp only
    have hlen2 : ((sortCaps (caps.map (fun c => (specStart c, c)))).map
        (fun p => p.2)).length = caps.length := by
      rw [List.length_map]
      unfold sortCaps
      rw [(List.perm_insertionSort keyLe _).length_eq, List.length_map]
    have hwf2 : ∀ c ∈ (sortCaps (caps.map (fun c => (specStart c, c)))).map
        (fun p => p.2), capWF c = true := by
      intro c hmem
      rcases List.mem_map.mp hmem with ⟨p, hp, rfl⟩
      have hp3 : p ∈ caps.map (fun c => (specStart c, c)) := by
        unfold sortCaps at hp
        exact ((List.perm_insertionSort keyLe _).mem_iff).mp hp
      rcases List.mem_map.mp hp3 with ⟨c0, hc0, rfl⟩
      exact hc c0 hc0
    rw [hlen2]
    rw [alignLoop_spec _ steps.length caps.length hC hlen2 hwf2 steps 0 hs (by simp)]
    dsimp only
    have hzero : (fun j st => specStepOut ((sortCaps (caps.map (fun c =>
        (specStart c, c)))).map (fun p => p.2)) steps.length caps.length (0 + j) st) =
        (fun j st => specStepOut (specSortedCaps caps) steps.length caps.length j st) := by
      funext j st
      rw [Nat.zero_add]
      rfl
    rw [hzero]

/-! ## Claim C2 -/

/-- C2: the caption aligner is exactly the claim's proportional-index
mapping — for well-typed inputs (steps are dicts; segments are dicts
carrying a numeric start, the shape spec §2/§3 gives them) the code's
function agrees with `specAlign`, which was transcribed from the claim
text, including the empty-input passthrough. -/
theorem match_recipe_eq_spec_align (steps caps : List JVal)
    (hs : steps.all stepWF = true) (hc : caps.all capWF = true) :
    matchRecipeWithCaptions steps caps = specAlign steps caps :=
  align_eq_spec_aux steps caps
    (fun s hmem => List.all_eq_true.mp hs s hmem)
    (fun c hmem => List.all_eq_true.mp hc c hmem)

/-- Witness for C2 on two steps and three unsorted segments. -/
theorem match_recipe_eq_spec_align_witness :
    matchRecipeWithCaptions stepsEx capsEx = specAlign stepsEx capsEx :=
  match_recipe_eq_spec_align stepsEx capsEx (by decide) (by decide)

/-! ## Claim C10 -/

theorem hasTiming_specStepOut (sorted : List JVal) (S C i : Nat) (st : JVal) :
    hasTiming (specStepOut sorted S C i st) = true := by
  have h1 : ¬ ("step" : String) = "start_time" := by decide
  have h2 : ¬ ("instruction" : String) = "start_time" := by decide
  have h3 : ¬ ("step" : String) = "end_time" := by decide
  have h4 : ¬ ("instruction" : String) = "end_time" := by decide
  have h5 : ¬ ("start_time" : String) = "end_time" := by decide
  simp [hasTiming, specStepOut, objHas, h1, h2, h3, h4, h5]

theorem all_mapIdx {α β : Type} (l : List α) (f : Nat → α → β) (p : β → Bool)
    (h : ∀ i x, p (f i x) = true) : (l.mapIdx f).all p = true := by
  induction l generalizing f with
  | nil => rfl
  | cons a rest ih =>
      rw [List.mapIdx_cons]
      simp only [List.all_cons, h 0 a, Bool.true_and]
      exact ih (fun i => f (i + 1)) (fun i x => h (i + 1) x)

/-- C10: the proportional index `int(i / totalSteps * totalSegments)`
is always in `[0, totalSegments)` for `i < totalSteps`, so the
aligner's untimed branch is unreachable: with both inputs non-empty
(and well-typed, as in C2) every output step carries `start_time` and
`end_time`. -/
theorem alignment_always_timed :
    (∀ i S C : Nat, i < S → 0 < C →
        0 ≤ pyInt ((i : Rat) / (S : Rat) * (C : Rat)) ∧
        pyInt ((i : Rat) / (S : Rat) * (C : Rat)) < (C : Int)) ∧
    (∀ steps caps : List JVal, steps.all stepWF = true → caps.all capWF = true →
        steps.isEmpty = false → caps.isEmpty = false →
        (matchRecipeWithCaptions steps caps).all hasTiming = true) := by
  constructor
  · intro i S C hi hC
    rw [pyInt_spec i S C]
    exact ⟨Int.natCast_nonneg _, by exact_mod_cast specSegIdx_lt S C i hi hC⟩
  · intro steps caps hs hc hse hce
    rw [align_eq_spec_aux steps caps
      (fun s hmem => List.all_eq_true.mp hs s hmem)
      (fun c hmem => List.all_eq_true.mp hc c hmem)]
    unfold specAlign
    rw [if_neg (by simp [hse, hce])]
    exact all_mapIdx steps _ hasTiming (fun i st => hasTiming_specStepOut _ _ _ i st)

/-- Witness for C10: the arithmetic fact at `i=1, S=3, C=9` and the
fully-timed output on the concrete example. -/
theorem alignment_always_timed_witness :
    pyInt (((1 : Nat) : Rat) / ((3 : Nat) : Rat) * ((9 : Nat) : Rat)) < ((9 : Nat) : Int) ∧
    (matchRecipeWithCaptions stepsEx capsEx).all hasTiming = true :=
  ⟨(alignment_always_timed.1 1 3 9 (by decide) (by decide)).2,
   alignment_always_timed.2 stepsEx capsEx (by decide) (by decide) (by decide) (by decide)⟩

/-! ## Store lemmas -/

theorem assocHas_eq_false_of_find_none {α : Type} (l : List (String × α)) (k : String)
    (h : assocFind l k = none) : assocHas l k = false := by
  induction l with
  | nil => rfl
  | cons p rest ih =>
      by_cases hp : p.1 = k
      · simp [assocFind, hp] at h
      · simp [assocFind, hp] at h
        simp [assocHas, hp, ih h]

theorem lookupRecipe_deleteVideo (db : DB) (id : String) :
    lookupRecipe (deleteVideo db id) id = none :=
  assocFind_deleteRows db.recipes id

theorem lookupSkip_insert_fresh (db : DB) (id reason : String)
    (h : lookupSkip db id = none) :
    lookupSkip (insertSkipped db id reason) id = some reason := by
  have hh : assocHas db.skipped id = false := assocHas_eq_false_of_find_none _ _ h
  unfold lookupSkip insertSkipped
  rw [if_neg (by simp [hh])]
  exact assocFind_append_self db.skipped id reason hh

/-! ## Claim C3 -/

/-- C3: a validator rejection is terminal — the driver records a skip
with reason "Quality validation failed: <reason>" (landing in the skip
table whenever the id has no earlier skip record, whose reason would
win by `ON CONFLICT DO NOTHING`), deletes the source row, and the item
is not in the recipes table afterwards. -/
theorem validation_reject_terminal
    (llm : String → Option String) (persistOk : Bool) (now : String)
    (db : DB) (id : String) (vdata : Obj) (d c reason : String) (oi : Option JVal)
    (hd : objGetD vdata "clean_description" (JVal.jstr "") = JVal.jstr d)
    (hc : objGetD vdata "clean_captions" (JVal.jstr "") = JVal.jstr c)
    (hlen : ¬ pyLen (pyStrip (d ++ " " ++ c)) < 100)
    (hval : validateExtractedData (extractWithLLM llm ("설명: " ++ d ++ "\n자막: " ++ c)) =
      Except.ok ⟨false, reason, oi⟩) :
    processVideo llm persistOk now db id vdata =
      (deleteVideo (insertSkipped db id ("Quality validation failed: " ++ reason)) id,
        Outcome.skippedValidation reason) ∧
    lookupRecipe (processVideo llm persistOk now db id vdata).1 id = none ∧
    (lookupSkip db id = none →
      lookupSkip (processVideo llm persistOk now db id vdata).1 id =
        some ("Quality validation failed: " ++ reason)) := by
  have hmain : processVideo llm persistOk now db id vdata =
      (deleteVideo (insertSkipped db id ("Quality validation failed: " ++ reason)) id,
        Outcome.skippedValidation reason) := by
    unfold processVideo processVideoE
    rw [hd, hc]
    dsimp only [asStr]
    rw [if_neg hlen, hval]
    dsimp only
    rw [if_pos rfl]
  refine ⟨hmain, ?_, ?_⟩
  · rw [hmain]
    exact lookupRecipe_deleteVideo _ id
  · intro hn
    rw [hmain]
    exact lookupSkip_insert_fresh db id _ hn

/-- Witness for C3: a transport failure makes the validator reject
with "No data extracted", which is recorded and the row deleted. -/
theorem validation_reject_terminal_witness :
    processVideo llmDown true "T" dbOne "vid1" pendingRow =
      (deleteVideo (insertSkipped dbOne "vid1" ("Quality validation failed: " ++ "No data extracted")) "vid1",
        Outcome.skippedValidation "No data extracted") ∧
    lookupRecipe (processVideo llmDown true "T" dbOne "vid1" pendingRow).1 "vid1" = none ∧
    (lookupSkip dbOne "vid1" = none →
      lookupSkip (processVideo llmDown true "T" dbOne "vid1" pendingRow).1 "vid1" =
        some ("Quality validation failed: " ++ "No data extracted")) :=
  validation_reject_terminal llmDown true "T" dbOne "vid1" pendingRow
    hundredChars "" "No data extracted" none rfl rfl (by decide) rfl

/-! ## Claim C7 -/

/-- C7 counterexample: with both cleaned fields empty the driver skips
with reason "Insufficient cleaned text" (the < 100 character rule) —
not "Source text empty after cleaning" as the claim states. -/
theorem empty_source_skip_reason_cex :
    (processVideo llmDown true "T" dbEmptyText "vid2" emptyTextRow).2 =
      Outcome.skippedShortText ∧
    lookupSkip (processVideo llmDown true "T" dbEmptyText "vid2" emptyTextRow).1 "vid2" =
      some "Insufficient cleaned text" ∧
    "Insufficient cleaned text" ≠ "Source text empty after cleaning" :=
  ⟨rfl, rfl, by decide⟩

/-- C7 (amended): when both cleaned fields are empty the driver
short-circuits — it records the skip reason "Insufficient cleaned
text" (not "Source text empty after cleaning"), deletes the source
row, and never invokes the model: the result is the same for every
model function. -/
theorem short_text_skip_no_llm_call
    (llm llm2 : String → Option String) (persistOk : Bool) (now : String)
    (db : DB) (id : String) (vdata : Obj)
    (hd : objGetD vdata "clean_description" (JVal.jstr "") = JVal.jstr "")
    (hc : objGetD vdata "clean_captions" (JVal.jstr "") = JVal.jstr "") :
    processVideo llm persistOk now db id vdata =
      (deleteVideo (insertSkipped db id "Insufficient cleaned text") id,
        Outcome.skippedShortText) ∧
    processVideo llm persistOk now db id vdata =
      processVideo llm2 persistOk now db id vdata := by
  have hmain : ∀ l : String → Option String, processVideo l persistOk now db id vdata =
      (deleteVideo (insertSkipped db id "Insufficient cleaned text") id,
        Outcome.skippedShortText) := by
    intro l
    unfold processVideo processVideoE
    rw [hd, hc]
    dsimp only [asStr]
    rw [if_pos (by decide : pyLen (pyStrip ("" ++ " " ++ "")) < 100)]
  exact ⟨hmain llm, (hmain llm).trans (hmain llm2).symm⟩

/-- Witness for C7's amended theorem on the concrete empty-text row. -/
theorem short_text_skip_no_llm_call_witness :
    processVideo llmDown true "T" dbEmptyText "vid2" emptyTextRow =
      (deleteVideo (insertSkipped dbEmptyText "vid2" "Insufficient cleaned text") "vid2",
        Outcome.skippedShortText) ∧
    processVideo llmDown true "T" dbEmptyText "vid2" emptyTextRow =
      processVideo llmGood true "T" dbEmptyText "vid2" emptyTextRow :=
  short_text_skip_no_llm_call llmDown llmGood true "T" dbEmptyText "vid2" emptyTextRow rfl rfl

/-! ## Driver inversion (claims C8 and C9) -/

theorem objHas_update_branch (vdata infoObj : Obj) (x : JVal) (c : Prop) [Decidable c]
    (k : String) (hm : objHas vdata k = true) :
    objHas (if c then objSet (objUpdate vdata infoObj) "recipe" x
            else objUpdate vdata infoObj) k = true := by
  split
  · rw [objHas_objSet, objHas_objUpdate, hm]
    simp
  · rw [objHas_objUpdate, hm]
    simp

theorem processVideoE_inv (llm : String → Option String) (persistOk : Bool) (now : String)
    (db : DB) (id : String) (vdata : Obj) (db2 : DB) (out : Outcome)
    (h : processVideoE llm persistOk now db id vdata = Except.ok (db2, out)) :
    (out = Outcome.persistFailed → db2 = db) ∧
    (∀ reason, out = Outcome.skippedValidation reason →
        db2 = deleteVideo (insertSkipped db id
          ("Quality validation failed: " ++ reason)) id) ∧
    (out = Outcome.succeeded →
        ∃ vd2 cleaned, cleanExtractedData now vd2 = Except.ok cleaned ∧
          db2 = upsertVideo db id (JVal.jobj cleaned) ∧
          (objHas vdata "metadata" = true → objHas vd2 "metadata" = true)) := by
  unfold processVideoE at h
  cases h1 : asStr (objGetD vdata "clean_description" (JVal.jstr "")) with
  | error e =>
      rw [h1] at h
      exact Except.noConfusion h
  | ok d =>
      rw [h1] at h
      dsimp only at h
      cases h2 : asStr (objGetD vdata "clean_captions" (JVal.jstr "")) with
      | error e =>
          rw [h2] at h
          exact Except.noConfusion h
      | ok c =>
          rw [h2] at h
          dsimp only at h
          by_cases h3 : pyLen (pyStrip (d ++ " " ++ c)) < 100
          · rw [if_pos h3] at h
            injection h with h4
            rw [Prod.mk.injEq] at h4
            obtain ⟨hdb, hout⟩ := h4
            subst hdb
            refine ⟨fun hk => Outcome.noConfusion (hout.trans hk),
              fun r hr => Outcome.noConfusion (hout.trans hr),
              fun hk => Outcome.noConfusion (hout.trans hk)⟩
          · rw [if_neg h3] at h
            cases h5 : validateExtractedData
                (extractWithLLM llm ("설명: " ++ d ++ "\n자막: " ++ c)) with
            | error e =>
                rw [h5] at h
                exact Except.noConfusion h
            | ok vr =>
                rw [h5] at h
                dsimp only at h
                by_cases h6 : vr.ok = false
                · rw [if_pos h6] at h
                  injection h with h4
                  rw [Prod.mk.injEq] at h4
                  obtain ⟨hdb, hout⟩ := h4
                  subst hdb
                  refine ⟨fun hk => Outcome.noConfusion (hout.trans hk), ?_,
                    fun hk => Outcome.noConfusion (hout.trans hk)⟩
                  intro r hr
                  have hr2 := hout.trans hr
                  injection hr2 with hrr
                  rw [hrr]
                · rw [if_neg h6] at h
                  split at h
                  · exact Except.noConfusion h
                  · rename_i cleaned hclean
                    by_cases h8 : persistOk = true
                    · rw [if_pos h8] at h
                      injection h with h4
                      rw [Prod.mk.injEq] at h4
                      obtain ⟨hdb, hout⟩ := h4
                      subst hdb
                      refine ⟨fun hk => Outcome.noConfusion (hout.trans hk),
                        fun r hr => Outcome.noConfusion (hout.trans hr), ?_⟩
                      intro _
                      refine ⟨_, cleaned, hclean, rfl, ?_⟩
                      intro hm
                      exact objHas_update_branch vdata _ _ _ "metadata" hm
                    · rw [if_neg h8] at h
                      injection h with h4
                      rw [Prod.mk.injEq] at h4
                      obtain ⟨hdb, hout⟩ := h4
                      subst hdb
                      exact ⟨fun _ => rfl,
                        fun r hr => Outcome.noConfusion (hout.trans hr),
                        fun hk => Outcome.noConfusion (hout.trans hk)⟩

theorem cleanExtractedData_strips (now : String) (o r : Obj)
    (h : cleanExtractedData now o = Except.ok r) :
    keysToRemove.all (fun k => !(objHas r k)) = true := by
  have hk5 : ∀ k ∈ keysToRemove, ¬ k = "metadata" := by decide
  have hbase : ∀ k ∈ keysToRemove, objHas (keysToRemove.foldl objPop o) k = false := by
    intro k hk
    rw [objHas_foldl_objPop]
    have hcon : keysToRemove.contains k = true := List.elem_eq_true_of_mem hk
    rw [hcon]
    simp
  unfold cleanExtractedData at h
  dsimp only at h
  apply List.all_eq_true.mpr
  intro k hk
  split at h
  · split at h
    · injection h with h2
      subst h2
      rw [objHas_objSet, hbase k hk]
      simp [hk5 k hk]
    · exact Except.noConfusion h
  · injection h with h2
    subst h2
    rw [hbase k hk]
    rfl

theorem cleanExtractedData_metadata (now : String) (o r : Obj)
    (hm : objHas o "metadata" = true)
    (h : cleanExtractedData now o = Except.ok r) :
    ∃ m, objGet r "metadata" = some (JVal.jobj m) ∧
      objGet m "extracted_at" = some (JVal.jstr now) := by
  have hm1 : objHas (keysToRemove.foldl objPop o) "metadata" = true := by
    rw [objHas_foldl_objPop, hm]
    rw [show keysToRemove.contains "metadata" = false from by decide]
    rfl
  unfold cleanExtractedData at h
  dsimp only at h
  rw [hm1] at h
  rw [if_pos rfl] at h
  split at h
  · rename_i m hmg
    injection h with h2
    subst h2
    refine ⟨[("collected_at", objGetD m "collected_at" JVal.jnull),
      ("cleaned_at", objGetD m "cleaned_at" JVal.jnull),
      ("extracted_at", JVal.jstr now),
      ("final_processing", JVal.jbool true)], ?_, ?_⟩
    · exact objGet_objSet_self _ "metadata" _
    · have hne1 : ¬ ("collected_at" : String) = "extracted_at" := by decide
      have hne2 : ¬ ("cleaned_at" : String) = "extracted_at" := by decide
      simp [objGet, hne1, hne2]
  · exact Except.noConfusion h

/-! ## Claim C8 -/

/-- C8: when the store write fails the driver leaves the store exactly
as it was — no skip record, no deletion, the row still satisfies the
pending-for-extraction query and is selected again on the next run. -/
theorem persist_failure_leaves_store_unchanged
    (llm : String → Option String) (persistOk : Bool) (now : String)
    (db : DB) (id : String) (vdata : Obj) (db2 : DB)
    (h : processVideo llm persistOk now db id vdata = (db2, Outcome.persistFailed)) :
    db2 = db ∧ getCleanedVideos db2 = getCleanedVideos db ∧
    lookupSkip db2 id = lookupSkip db id ∧
    lookupRecipe db2 id = lookupRecipe db id := by
  have hdb : db2 = db := by
    unfold processVideo at h
    cases hp : processVideoE llm persistOk now db id vdata with
    | error e =>
        rw [hp] at h
        dsimp only at h
        rw [Prod.mk.injEq] at h
        exact absurd h.2 (by simp)
    | ok r =>
        rw [hp] at h
        dsimp only at h
        rw [h] at hp
        exact (processVideoE_inv llm persistOk now db id vdata db2 Outcome.persistFailed hp).1 rfl
  exact ⟨hdb, by rw [hdb], by rw [hdb], by rw [hdb]⟩

set_option maxRecDepth 100000 in
/-- Witness for C8: the concrete pending row with a failing store
write — the store afterwards equals the store before. -/
theorem persist_failure_leaves_store_unchanged_witness :
    (processVideo llmGood false "T" dbOne "vid1" pendingRow).1 = dbOne ∧
    getCleanedVideos (processVideo llmGood false "T" dbOne "vid1" pendingRow).1 =
      getCleanedVideos dbOne := by
  have h := persist_failure_leaves_store_unchanged llmGood false "T" dbOne "vid1" pendingRow
    (processVideo llmGood false "T" dbOne "vid1" pendingRow).1 rfl
  exact ⟨h.1, h.2.1⟩

/-! ## Claim C9 -/

/-- C9: a successfully persisted document contains none of the five
raw/intermediate text fields, and when the source row carried a
`metadata` object (the cleaning stage guarantees it does) the persisted
metadata carries the `extracted_at` timestamp; a record the validator
rejected is never in the recipes table afterwards. -/
theorem persisted_record_stripped_and_stamped
    (llm : String → Option String) (persistOk : Bool) (now : String)
    (db : DB) (id : String) (vdata : Obj) (db2 : DB) (out : Outcome)
    (h : processVideo llm persistOk now db id vdata = (db2, out)) :
    (out = Outcome.succeeded →
      ∃ r, lookupRecipe db2 id = some (JVal.jobj r) ∧
        keysToRemove.all (fun k => !(objHas r k)) = true ∧
        (objHas vdata "metadata" = true →
          ∃ m, objGet r "metadata" = some (JVal.jobj m) ∧
            objGet m "extracted_at" = some (JVal.jstr now))) ∧
    (∀ reason, out = Outcome.skippedValidation reason → lookupRecipe db2 id = none) := by
  unfold processVideo at h
  cases hp : processVideoE llm persistOk now db id vdata with
  | error e =>
      rw [hp] at h
      dsimp only at h
      rw [Prod.mk.injEq] at h
      obtain ⟨hdb, hout⟩ := h
      constructor
      · intro hk
        exact Outcome.noConfusion (hout.trans hk)
      · intro r hr
        exact Outcome.noConfusion (hout.trans hr)
  | ok r =>
      rw [hp] at h
      dsimp only at h
      rw [h] at hp
      have hinv := processVideoE_inv llm persistOk now db id vdata db2 out hp
      constructor
      · intro hout
        obtain ⟨vd2, cleaned, hclean, hdb2, hmeta⟩ := hinv.2.2 hout
        refine ⟨cleaned, ?_, cleanExtractedData_strips now vd2 cleaned hclean, ?_⟩
        · rw [hdb2]
          exact assocFind_upsertRows_self db.recipes id (JVal.jobj cleaned)
        · intro hm
          exact cleanExtractedData_metadata now vd2 cleaned (hmeta hm) hclean
      · intro reason hr
        rw [hinv.2.1 reason hr]
        exact lookupRecipe_deleteVideo _ id

set_option maxRecDepth 100000 in
/-- Witness for C9 on the concrete pending row with a successful
write. -/
theorem persisted_record_stripped_and_stamped_witness :
    ∃ r, lookupRecipe (processVideo llmGood true "T" dbOne "vid1" pendingRow).1 "vid1" =
        some (JVal.jobj r) ∧
      keysToRemove.all (fun k => !(objHas r k)) = true ∧
      (objHas pendingRow "metadata" = true →
        ∃ m, objGet r "metadata" = some (JVal.jobj m) ∧
          objGet m "extracted_at" = some (JVal.jstr "T")) :=
  (persisted_record_stripped_and_stamped llmGood true "T" dbOne "vid1" pendingRow
    (processVideo llmGood true "T" dbOne "vid1" pendingRow).1
    (processVideo llmGood true "T" dbOne "vid1" pendingRow).2 rfl).1 rfl

end YtCrawler
